import Mathlib

/-!
# Verification of the hailight.space semantic knowledge-graph engine

Shallow embedding of the core components of the repository:

* `TopicClassifier` (`supabase/functions/_shared/topics.ts`): `classifyIntoTopic`
* `CrossQueryMatcher` (`supabase/functions/_shared/similarity.ts`): `findRelatedSources`
* search pipeline concurrent stage (`supabase/functions/search/index.ts`)
* `DedupEngine` (`supabase/functions/chat/index.ts`, dedup-sources function): `mergePair`
* `ResearchScheduler` (`supabase/functions/insights/index.ts`): `processDirection` and
  the auto-research batch loop
* OpenAlex ingestion (`ingest-openalex`): `embedAndInsertBatch`
* LLM response parsing (`supabase/functions/_shared/llm.ts`): `parseJsonResponse`

Database tables are modelled as lists of rows; every external call (Supabase RPC,
LLM, Exa search, embedding service) is modelled by an explicit oracle value
describing its outcome, so the control flow of the TypeScript functions can be
reproduced faithfully.  Embedding vectors are modelled as lists of rationals
(the spec states all centroid facts "within floating-point tolerance", i.e. they
are facts of exact field arithmetic).
-/

namespace Hailight

/-- An embedding vector: component list of rationals. -/
abbrev Emb := List ℚ

/-! ## TopicClassifier (`_shared/topics.ts`) -/

/-- Row of the `topics` table (fields used by `classifyIntoTopic`). -/
structure Topic where
  id : String
  user_id : String
  label : String
  embedding : Emb
  query_count : ℕ
  deriving Repr, DecidableEq

/-- Row of the `queries` table (fields used by `classifyIntoTopic`). -/
structure QueryRow where
  id : String
  user_id : String
  raw_input : String
  topic_id : Option String
  deriving Repr, DecidableEq

/-- The `TopicResult` interface returned by `classifyIntoTopic`. -/
structure TopicResult where
  topic_id : String
  topic_label : String
  is_new : Bool
  deriving Repr, DecidableEq

/-- One row returned by the `match_user_topic` RPC. -/
structure MatchRow where
  id : String
  label : String
  similarity : ℚ
  deriving Repr, DecidableEq

/-- State touched by the classifier: the `topics` and `queries` tables. -/
structure ClassifierState where
  topics : List Topic
  queries : List QueryRow
  deriving Repr, DecidableEq

/-- Outcome of the labelling LLM call inside `generateTopicLabel`. -/
inductive LabelOutcome where
  /-- the LLM returned this (already trimmed) label -/
  | llm (s : String)
  /-- the LLM call failed (network / upstream error) -/
  | failure
  deriving Repr, DecidableEq

/-- `generateTopicLabel` (`_shared/llm.ts`): returns the LLM label, falling back
to the first 50 characters of the query text when the call fails (it never
throws). -/
def generateTopicLabel (queryText : String) (o : LabelOutcome) : String :=
  match o with
  | .llm s => s
  | .failure => queryText.take 50

/-- Oracle describing the outcomes of the external calls made by one
`classifyIntoTopic` invocation. -/
structure ClassifyOracle where
  /-- the `match_user_topic` RPC returned an error object -/
  matchErr : Bool
  /-- the rows returned by the `match_user_topic` RPC (empty when no match) -/
  matchRows : List MatchRow
  /-- outcome of the labelling call -/
  labelOut : LabelOutcome
  /-- error message of the `topics` insert, when it fails -/
  insertErr : Option String
  /-- id assigned by the database to a newly inserted topic -/
  newTopicId : String
  deriving Repr, DecidableEq

/-- PostgREST `.single()`: exactly one row or nothing. -/
def single? {α : Type} (l : List α) : Option α :=
  match l with
  | [x] => some x
  | _ => none

/-- `select ... from topics where id = tid` followed by `.single()`. -/
def getTopicRow (st : ClassifierState) (tid : String) : Option Topic :=
  single? (st.topics.filter (fun t => t.id == tid))

/-- The centroid update of the matched branch:
`oldEmb.map((v, i) => (v * n + queryEmbedding[i]) / (n + 1))`. -/
def updateCentroid (old : Emb) (n : ℕ) (e : Emb) : Emb :=
  List.zipWith (fun v q => (v * (n : ℚ) + q) / ((n : ℚ) + 1)) old e

/-- `classifyIntoTopic` (`_shared/topics.ts`): returns the updated database
state together with the result (`Except` models a thrown error).

Matched branch (`!matchErr && match?.length > 0`): reads the topic row, updates
its centroid as a running average and bumps `query_count`, assigns the query,
returns `is_new = false`.  Otherwise: generates a label, inserts a new topic
with the query embedding and `query_count = 1` (throwing on insert error),
assigns the query, returns `is_new = true`. -/
def classifyIntoTopic (queryText : String) (queryEmbedding : Emb)
    (userId queryId : String) (o : ClassifyOracle) (st : ClassifierState) :
    ClassifierState × Except String TopicResult :=
  match o.matchErr, o.matchRows with
  | false, topic :: _ =>
      let st1 :=
        match getTopicRow st topic.id with
        | some existing =>
            let n := existing.query_count
            let newCentroid := updateCentroid existing.embedding n queryEmbedding
            { st with
                topics := st.topics.map (fun (t : Topic) =>
                  if t.id == topic.id then
                    { t with embedding := newCentroid, query_count := n + 1 }
                  else t) }
        | none => st
      let st2 :=
        { st1 with
            queries := st1.queries.map (fun (q : QueryRow) =>
              if q.id == queryId then { q with topic_id := some topic.id } else q) }
      (st2, .ok { topic_id := topic.id, topic_label := topic.label, is_new := false })
  | _, _ =>
      let label := generateTopicLabel queryText o.labelOut
      match o.insertErr with
      | some e => (st, .error e)
      | none =>
          let newTopic : Topic :=
            { id := o.newTopicId, user_id := userId, label := label
              embedding := queryEmbedding, query_count := 1 }
          let st1 := { st with topics := st.topics ++ [newTopic] }
          let st2 :=
            { st1 with
                queries := st1.queries.map (fun (q : QueryRow) =>
                  if q.id == queryId then { q with topic_id := some o.newTopicId } else q) }
          (st2, .ok { topic_id := o.newTopicId, topic_label := label, is_new := true })

/-- The state transition of one classification call that matches topic `tid`
(the `match_user_topic` RPC succeeds and ranks `tid` first). -/
def assignMatched (tid qt uid qid lbl : String) (e : Emb) (st : ClassifierState) :
    ClassifierState :=
  (classifyIntoTopic qt e uid qid
    { matchErr := false, matchRows := [{ id := tid, label := lbl, similarity := 1 }],
      labelOut := .failure, insertErr := none, newTopicId := "" } st).1

/-- Component `i` of the arithmetic mean of a list of vectors. -/
def meanAt (vs : List Emb) (i : ℕ) : ℚ :=
  ((vs.map (fun v => v.getD i 0)).sum) / (vs.length : ℚ)

lemma single?_eq_some {α : Type} {l : List α} {x : α} : single? l = some x ↔ l = [x] := by
  cases l with
  | nil => simp [single?]
  | cons a t =>
    cases t with
    | nil => simp [single?]
    | cons b t' => simp [single?]

lemma topicFilter_eq_nil (l : List Topic) (tid : String) (h : ∀ x ∈ l, x.id ≠ tid) :
    l.filter (fun t => t.id == tid) = [] := by
  simp only [List.filter_eq_nil_iff]
  intro a ha
  simpa using h a ha

lemma getTopicRow_append (pre post : List Topic) (t : Topic) (tid : String)
    (ht : t.id = tid) (hpre : ∀ x ∈ pre, x.id ≠ tid) (hpost : ∀ x ∈ post, x.id ≠ tid)
    (st : ClassifierState) (hst : st.topics = pre ++ t :: post) :
    getTopicRow st tid = some t := by
  unfold getTopicRow
  rw [hst, List.filter_append, List.filter_cons, topicFilter_eq_nil pre tid hpre,
    topicFilter_eq_nil post tid hpost]
  simp [ht, single?]

lemma topicMap_update_ne (l : List Topic) (tid : String) (g : Topic → Topic)
    (h : ∀ x ∈ l, x.id ≠ tid) :
    l.map (fun x => if x.id == tid then g x else x) = l := by
  induction l with
  | nil => simp
  | cons a r ih =>
    have ha : (a.id == tid) = false := by simpa using h a (by simp)
    simp only [List.map_cons, ha, Bool.false_eq_true, if_false, List.cons.injEq, true_and]
    exact ih (fun x hx => h x (by simp [hx]))

lemma updateCentroid_length (old e : Emb) (n : ℕ) :
    (updateCentroid old n e).length = min old.length e.length := by
  simp [updateCentroid, List.length_zipWith]

lemma updateCentroid_getD (old e : Emb) (n i : ℕ) (h1 : i < old.length) (h2 : i < e.length) :
    (updateCentroid old n e).getD i 0
      = (old.getD i 0 * (n : ℚ) + e.getD i 0) / ((n : ℚ) + 1) := by
  have hlen : i < (updateCentroid old n e).length := by
    rw [updateCentroid_length]; omega
  rw [List.getD_eq_getElem _ _ hlen, List.getD_eq_getElem _ _ h1, List.getD_eq_getElem _ _ h2]
  simp [updateCentroid, List.getElem_zipWith]

lemma meanAt_append (vs : List Emb) (e : Emb) (i : ℕ) (h : vs ≠ []) :
    (meanAt vs i * (vs.length : ℚ) + e.getD i 0) / ((vs.length : ℚ) + 1)
      = meanAt (vs ++ [e]) i := by
  have h0 : vs.length ≠ 0 := fun hh => h (List.length_eq_zero.mp hh)
  have hn : (vs.length : ℚ) ≠ 0 := Nat.cast_ne_zero.mpr h0
  unfold meanAt
  simp only [List.map_append, List.sum_append, List.length_append, List.map_cons,
    List.map_nil, List.sum_cons, List.sum_nil, List.length_cons, List.length_nil]
  push_cast
  field_simp

lemma assignMatched_topics (tid qt uid qid lbl : String) (e : Emb)
    (pre post : List Topic) (t : Topic) (st : ClassifierState)
    (hst : st.topics = pre ++ t :: post) (ht : t.id = tid)
    (hpre : ∀ x ∈ pre, x.id ≠ tid) (hpost : ∀ x ∈ post, x.id ≠ tid) :
    (assignMatched tid qt uid qid lbl e st).topics =
      pre ++ { t with embedding := updateCentroid t.embedding t.query_count e,
                      query_count := t.query_count + 1 } :: post := by
  have hrow : getTopicRow st tid = some t :=
    getTopicRow_append pre post t tid ht hpre hpost st hst
  have htt : (t.id == tid) = true := by simp [ht]
  unfold assignMatched classifyIntoTopic
  dsimp only
  rw [hrow]
  dsimp only
  rw [hst]
  simp only [List.map_append, List.map_cons, htt, if_pos]
  rw [topicMap_update_ne pre tid _ hpre, topicMap_update_ne post tid _ hpost]

lemma topicFilter_map (f : Topic → Topic) (hf : ∀ x, (f x).id = x.id)
    (l : List Topic) (tid : String) :
    (l.map f).filter (fun x => x.id == tid) = (l.filter (fun x => x.id == tid)).map f := by
  induction l with
  | nil => simp
  | cons a r ih =>
    simp only [List.map_cons, List.filter_cons, hf]
    cases hb : (a.id == tid) <;> simp [hb, ih]

lemma assignMatched_fold (tid qt uid qid lbl : String) (d : ℕ) :
    ∀ (es vs : List Emb) (pre post : List Topic) (t : Topic) (st : ClassifierState),
      st.topics = pre ++ t :: post → t.id = tid →
      (∀ x ∈ pre, x.id ≠ tid) → (∀ x ∈ post, x.id ≠ tid) →
      vs ≠ [] →
      (∀ e ∈ es, e.length = d) →
      t.embedding.length = d →
      (∀ i, i < d → t.embedding.getD i 0 = meanAt vs i) →
      t.query_count = vs.length →
      ∃ t' : Topic,
        (es.foldl (fun s e => assignMatched tid qt uid qid lbl e s) st).topics
          = pre ++ t' :: post ∧
        t'.id = tid ∧ t'.embedding.length = d ∧
        (∀ i, i < d → t'.embedding.getD i 0 = meanAt (vs ++ es) i) ∧
        t'.query_count = (vs ++ es).length := by
  intro es
  induction es with
  | nil =>
    intro vs pre post t st hst ht hpre hpost hvs hes hlen hmean hcount
    exact ⟨t, by simpa using hst, ht, hlen, by simpa using hmean, by simpa using hcount⟩
  | cons e es ih =>
    intro vs pre post t st hst ht hpre hpost hvs hes hlen hmean hcount
    have helen : e.length = d := hes e (by simp)
    have hstep := assignMatched_topics tid qt uid qid lbl e pre post t st hst ht hpre hpost
    set t1 : Topic := { t with embedding := updateCentroid t.embedding t.query_count e,
                               query_count := t.query_count + 1 } with ht1
    have ht1len : t1.embedding.length = d := by
      simp [ht1, updateCentroid_length, hlen, helen]
    have ht1mean : ∀ i, i < d → t1.embedding.getD i 0 = meanAt (vs ++ [e]) i := by
      intro i hi
      have h1 : i < t.embedding.length := by omega
      have h2 : i < e.length := by omega
      show (updateCentroid t.embedding t.query_count e).getD i 0 = _
      rw [updateCentroid_getD t.embedding e t.query_count i h1 h2, hmean i hi, hcount]
      exact meanAt_append vs e i hvs
    have ht1count : t1.query_count = (vs ++ [e]).length := by
      simp [ht1, hcount]
    simp only [List.foldl_cons]
    obtain ⟨t', h1, h2, h3, h4, h5⟩ := ih (vs ++ [e]) pre post t1
      (assignMatched tid qt uid qid lbl e st) hstep (by simp [ht1, ht]) hpre hpost
      (by simp) (fun x hx => hes x (by simp [hx])) ht1len ht1mean ht1count
    refine ⟨t', h1, h2, h3, ?_, ?_⟩
    · intro i hi; rw [h4 i hi]; simp [List.append_assoc]
    · rw [h5]; simp

/-- **C1.**  For every matched classification call, `classifyIntoTopic` sets the
new centroid to `(old_centroid[i] * n + queryEmbedding[i]) / (n + 1)` for every
dimension `i` (where `n` is the topic's current member count) and increments the
count to `n + 1`; consequently, after `N` sequential assignments to a topic
(starting from the topic's creation with one member), its centroid equals the
component-wise arithmetic mean of the `N` member embeddings and its count
equals `N`. -/
theorem classifyIntoTopic_centroid_mean :
    (∀ (qt : String) (e : Emb) (uid qid : String) (o : ClassifyOracle)
       (st : ClassifierState) (m : MatchRow) (rest : List MatchRow) (t : Topic),
       o.matchErr = false → o.matchRows = m :: rest → getTopicRow st m.id = some t →
       (classifyIntoTopic qt e uid qid o st).2 = .ok ⟨m.id, m.label, false⟩ ∧
       ∃ t', getTopicRow (classifyIntoTopic qt e uid qid o st).1 m.id = some t' ∧
         t'.query_count = t.query_count + 1 ∧
         ∀ i, i < t.embedding.length → i < e.length →
           t'.embedding.getD i 0
             = (t.embedding.getD i 0 * (t.query_count : ℚ) + e.getD i 0)
                 / ((t.query_count : ℚ) + 1)) ∧
    (∀ (tid qt uid qid lbl uid0 lbl0 : String) (d : ℕ) (e0 : Emb) (es : List Emb)
       (pre post : List Topic) (st : ClassifierState),
       st.topics = pre ++ (⟨tid, uid0, lbl0, e0, 1⟩ : Topic) :: post →
       (∀ x ∈ pre, x.id ≠ tid) → (∀ x ∈ post, x.id ≠ tid) →
       e0.length = d → (∀ e ∈ es, e.length = d) →
       ∃ t', (es.foldl (fun s e => assignMatched tid qt uid qid lbl e s) st).topics
           = pre ++ t' :: post ∧
         t'.query_count = (e0 :: es).length ∧
         ∀ i, i < d → t'.embedding.getD i 0 = meanAt (e0 :: es) i) := by
  constructor
  · intro qt e uid qid o st m rest t hme hmr hrow
    obtain ⟨me, mr, lo, ie, nid⟩ := o
    simp only at hme hmr
    subst hme; subst hmr
    have hfil : st.topics.filter (fun x => x.id == m.id) = [t] :=
      single?_eq_some.mp (by simpa [getTopicRow] using hrow)
    have htmem : t ∈ st.topics.filter (fun x => x.id == m.id) := by
      rw [hfil]; exact List.mem_singleton.mpr rfl
    have htpred : (t.id == m.id) = true := (List.mem_filter.mp htmem).2
    unfold classifyIntoTopic
    dsimp only
    rw [hrow]
    refine ⟨rfl, ?_⟩
    dsimp only [getTopicRow]
    rw [topicFilter_map _ (fun x => by cases hb : (x.id == m.id) <;> simp) _ m.id, hfil]
    have htid : t.id = m.id := by simpa using htpred
    refine ⟨{ t with embedding := updateCentroid t.embedding t.query_count e, query_count := t.query_count + 1 }, ?_, rfl, ?_⟩
    · simp [single?, htpred, htid]
    · intro i h1 h2
      exact updateCentroid_getD t.embedding e t.query_count i h1 h2
  · intro tid qt uid qid lbl uid0 lbl0 d e0 es pre post st hst hpre hpost he0 hes
    obtain ⟨t', h1, _, _, h4, h5⟩ :=
      assignMatched_fold tid qt uid qid lbl d es [e0] pre post
        ⟨tid, uid0, lbl0, e0, 1⟩ st hst rfl hpre hpost (by simp) hes he0
        (by intro i _; simp [meanAt]) (by simp)
    exact ⟨t', h1, by simpa using h5, fun i hi => by simpa using h4 i hi⟩

/-- Witness for `classifyIntoTopic_centroid_mean`: a topic with centroid `[4]`
and one member matched by a query with embedding `[2]` moves to centroid `[3]`
and count `2`; folding two further assignments from a fresh topic yields the
three-member mean. -/
theorem classifyIntoTopic_centroid_mean_witness :
    ((classifyIntoTopic "q" [(2 : ℚ)] "u" "qid"
        ⟨false, [⟨"t1", "L", 1⟩], .failure, none, "x"⟩
        ⟨[⟨"t1", "u", "L", [(4 : ℚ)], 1⟩], []⟩).2 = .ok ⟨"t1", "L", false⟩ ∧
      ∃ t', getTopicRow (classifyIntoTopic "q" [(2 : ℚ)] "u" "qid"
          ⟨false, [⟨"t1", "L", 1⟩], .failure, none, "x"⟩
          ⟨[⟨"t1", "u", "L", [(4 : ℚ)], 1⟩], []⟩).1 "t1" = some t' ∧
        t'.query_count = 1 + 1 ∧
        ∀ i, i < ([(4 : ℚ)] : Emb).length → i < ([(2 : ℚ)] : Emb).length →
          t'.embedding.getD i 0
            = (([(4 : ℚ)] : Emb).getD i 0 * ((1 : ℕ) : ℚ) + ([(2 : ℚ)] : Emb).getD i 0)
                / (((1 : ℕ) : ℚ) + 1)) ∧
    (∃ t', (([[(5 : ℚ)], [(9 : ℚ)]] : List Emb).foldl
          (fun s e => assignMatched "t1" "q" "u" "qid" "L" e s)
          ⟨[⟨"t1", "u", "L", [(1 : ℚ)], 1⟩], []⟩).topics = [] ++ t' :: [] ∧
      t'.query_count = ([(1 : ℚ)] :: [[(5 : ℚ)], [(9 : ℚ)]] : List Emb).length ∧
      ∀ i, i < 1 → t'.embedding.getD i 0
        = meanAt ([(1 : ℚ)] :: [[(5 : ℚ)], [(9 : ℚ)]] : List Emb) i) := by
  constructor
  · exact classifyIntoTopic_centroid_mean.1 "q" [2] "u" "qid"
      ⟨false, [⟨"t1", "L", 1⟩], .failure, none, "x"⟩
      ⟨[⟨"t1", "u", "L", [4], 1⟩], []⟩ ⟨"t1", "L", 1⟩ [] ⟨"t1", "u", "L", [4], 1⟩
      rfl rfl (by decide)
  · exact classifyIntoTopic_centroid_mean.2 "t1" "q" "u" "qid" "L" "u" "L" 1
      [1] [[5], [9]] [] [] ⟨[⟨"t1", "u", "L", [1], 1⟩], []⟩ rfl
      (by simp) (by simp) rfl (by decide)

/-- **C4.**  When the topic-match lookup errors or returns no row above the
threshold, `classifyIntoTopic` creates exactly one new topic whose centroid is
the query embedding and whose member count is 1, assigns the query to it, and
returns `is_new = true`; the lookup error is not propagated. -/
theorem classifyIntoTopic_creates_new_topic
    (qt : String) (e : Emb) (uid qid : String) (o : ClassifyOracle) (st : ClassifierState)
    (h : o.matchErr = true ∨ o.matchRows = []) (hins : o.insertErr = none) :
    classifyIntoTopic qt e uid qid o st =
      (⟨st.topics ++ [⟨o.newTopicId, uid, generateTopicLabel qt o.labelOut, e, 1⟩],
        st.queries.map (fun (q : QueryRow) =>
          if q.id == qid then { q with topic_id := some o.newTopicId } else q)⟩,
       .ok ⟨o.newTopicId, generateTopicLabel qt o.labelOut, true⟩) := by
  obtain ⟨me, mr, lo, ie, nid⟩ := o
  simp only at h hins
  subst hins
  rcases h with h | h
  · subst h
    cases mr <;> rfl
  · subst h
    cases me <;> rfl

/-- Witness for `classifyIntoTopic_creates_new_topic`: a user with zero topics
and an erroring lookup still gets exactly one fresh topic with centroid equal
to the query embedding. -/
theorem classifyIntoTopic_creates_new_topic_witness :
    classifyIntoTopic "q" [(1 : ℚ)] "u" "qid" ⟨true, [], .failure, none, "nt"⟩ ⟨[], []⟩ =
      (⟨[] ++ [⟨"nt", "u", generateTopicLabel "q" .failure, [(1 : ℚ)], 1⟩],
        ([] : List QueryRow).map (fun (q : QueryRow) =>
          if q.id == "qid" then { q with topic_id := some "nt" } else q)⟩,
       .ok ⟨"nt", generateTopicLabel "q" .failure, true⟩) :=
  classifyIntoTopic_creates_new_topic "q" [1] "u" "qid"
    ⟨true, [], .failure, none, "nt"⟩ ⟨[], []⟩ (Or.inl rfl) rfl

/-! ## CrossQueryMatcher (`_shared/similarity.ts`) and the search pipeline's
concurrent stage (`search/index.ts`, step 5) -/

/-- One row returned by the `match_sources` RPC. -/
structure RawMatch where
  id : String
  title : String
  url : String
  raw_input : String
  similarity : ℚ
  deriving Repr, DecidableEq

/-- The `CrossQueryMatch` interface of `_shared/similarity.ts`. -/
structure CrossQueryMatch where
  source_index : ℕ
  matched_source_id : String
  matched_title : String
  matched_url : String
  matched_query : String
  similarity : ℚ
  deriving Repr, DecidableEq

/-- Outcome of one per-source `match_sources` lookup inside
`findRelatedSources`. -/
inductive RpcOutcome where
  /-- the promise rejected (network-level failure of the lookup) -/
  | rejected
  /-- the RPC returned an error object (`error` non-null): logged, yields `[]` -/
  | errored
  /-- the RPC returned these rows -/
  | rows (rs : List RawMatch)
  deriving Repr, DecidableEq

/-- `findRelatedSources` (`_shared/similarity.ts`): fires one lookup per source
embedding via `Promise.allSettled`, keeps only fulfilled results (a rejected
lookup contributes nothing, an RPC error contributes `[]`), and flattens.
It returns a plain list — it can never fail the batch. -/
def findRelatedSources (outs : List RpcOutcome) : List CrossQueryMatch :=
  ((outs.mapIdx fun i o =>
      match o with
      | .rejected => none
      | .errored => some []
      | .rows rs => some (rs.map fun m =>
          { source_index := i, matched_source_id := m.id, matched_title := m.title,
            matched_url := m.url, matched_query := m.raw_input,
            similarity := m.similarity })).filterMap id).flatten

/-- Result of the search request after the concurrent stage: either the
pipeline continues with the three results, or the handler's `catch` turns the
rejection into an error response. -/
inductive StageOutcome (α : Type) where
  | success (t : TopicResult) (m : List CrossQueryMatch) (a : α)
  | errorResponse (msg : String)
  deriving Repr, DecidableEq

/-- Step 5 of the search pipeline (`search/index.ts`):
`Promise.all([classifyIntoTopic(...), findRelatedSources(...), analyzeConnections(...)])`.
`Promise.all` rejects as soon as any of the three rejects, and the handler's
`catch` converts the rejection into an error response; `findRelatedSources`
always fulfills.  `α` is the analysis payload (`LLMAnalysis`). -/
def runParallelStage {α : Type} (classifyRes : Except String TopicResult)
    (matchOuts : List RpcOutcome) (analysisRes : Except String α) : StageOutcome α :=
  match classifyRes, analysisRes with
  | .error e, _ => .errorResponse e
  | _, .error e => .errorResponse e
  | .ok t, .ok a => .success t (findRelatedSources matchOuts) a

/-- **C3, counterexample.**  The claim says a failure inside `classifyIntoTopic`
is absorbed and never fails the request.  But `classifyIntoTopic` throws when
the new-topic insert errors (`topics.ts` line 79: `if (insertErr) throw insertErr;`),
and that rejection propagates through `Promise.all` to an error response even
though `analyzeConnections` succeeded. -/
theorem classify_failure_fails_request_cex :
    runParallelStage
      (classifyIntoTopic "q" [(1 : ℚ)] "u" "qid"
        ⟨false, [], .failure, some "duplicate key value", "nt"⟩ ⟨[], []⟩).2
      [.rejected] (.ok ()) = .errorResponse "duplicate key value" := rfl

/-- **C3, amended.**  In the concurrent stage: (1) a failure of
`analyzeConnections` always fails the request with an error response;
(2) per-source lookup failures inside `findRelatedSources` are absorbed and the
request succeeds; (3) a topic-lookup error inside `classifyIntoTopic` is
absorbed (a new topic is created instead); but (4) a topic-insert error inside
`classifyIntoTopic` propagates and fails the request. -/
theorem parallel_stage_failure_semantics :
    (∀ (α : Type) (c : Except String TopicResult) (outs : List RpcOutcome) (e : String),
      runParallelStage (α := α) c outs (.error e) =
        .errorResponse (match c with | .error e' => e' | .ok _ => e)) ∧
    (∀ (α : Type) (t : TopicResult) (outs : List RpcOutcome) (a : α),
      runParallelStage (.ok t) outs (.ok a) = .success t (findRelatedSources outs) a) ∧
    (∀ (qt : String) (e : Emb) (uid qid : String) (o : ClassifyOracle)
       (st : ClassifierState), o.matchErr = true → o.insertErr = none →
      (classifyIntoTopic qt e uid qid o st).2 =
        .ok ⟨o.newTopicId, generateTopicLabel qt o.labelOut, true⟩) ∧
    (∀ (qt : String) (e : Emb) (uid qid : String) (o : ClassifyOracle)
       (st : ClassifierState) (msg : String),
      (o.matchErr = true ∨ o.matchRows = []) → o.insertErr = some msg →
      (classifyIntoTopic qt e uid qid o st).2 = .error msg ∧
      ∀ (α : Type) (outs : List RpcOutcome) (a : α),
        runParallelStage (classifyIntoTopic qt e uid qid o st).2 outs (.ok a) =
          .errorResponse msg) := by
  refine ⟨?_, ?_, ?_, ?_⟩
  · intro α c outs e
    cases c <;> rfl
  · intro α t outs a
    rfl
  · intro qt e uid qid o st hmatch hins
    rw [classifyIntoTopic_creates_new_topic qt e uid qid o st (Or.inl hmatch) hins]
  · intro qt e uid qid o st msg h hins
    obtain ⟨me, mr, lo, ie, nid⟩ := o
    simp only at h hins
    subst hins
    have hres : (classifyIntoTopic qt e uid qid ⟨me, mr, lo, some msg, nid⟩ st).2
        = .error msg := by
      rcases h with h | h
      · subst h; cases mr <;> rfl
      · subst h; cases me <;> rfl
    exact ⟨hres, fun α outs a => by rw [hres]; rfl⟩

/-- Witness for `parallel_stage_failure_semantics`, exercising each conjunct at
a concrete input. -/
theorem parallel_stage_failure_semantics_witness :
    (runParallelStage (α := Unit) (.ok ⟨"t", "L", false⟩) [] (.error "llm down") =
      .errorResponse "llm down") ∧
    (runParallelStage (.ok (⟨"t", "L", false⟩ : TopicResult)) [.rejected, .errored] (.ok ()) =
      .success ⟨"t", "L", false⟩ (findRelatedSources [.rejected, .errored]) ()) ∧
    ((classifyIntoTopic "q" [(1 : ℚ)] "u" "qid" ⟨true, [], .failure, none, "nt"⟩ ⟨[], []⟩).2 =
      .ok ⟨"nt", generateTopicLabel "q" .failure, true⟩) ∧
    ((classifyIntoTopic "q" [(1 : ℚ)] "u" "qid" ⟨true, [], .failure, some "boom", "nt"⟩
        ⟨[], []⟩).2 = .error "boom" ∧
      ∀ (α : Type) (outs : List RpcOutcome) (a : α),
        runParallelStage (classifyIntoTopic "q" [(1 : ℚ)] "u" "qid"
          ⟨true, [], .failure, some "boom", "nt"⟩ ⟨[], []⟩).2 outs (.ok a) =
          .errorResponse "boom") := by
  refine ⟨?_, ?_, ?_, ?_⟩
  · exact parallel_stage_failure_semantics.1 Unit (.ok ⟨"t", "L", false⟩) [] "llm down"
  · exact parallel_stage_failure_semantics.2.1 Unit ⟨"t", "L", false⟩ [.rejected, .errored] ()
  · exact parallel_stage_failure_semantics.2.2.1 "q" [1] "u" "qid"
      ⟨true, [], .failure, none, "nt"⟩ ⟨[], []⟩ rfl rfl
  · exact parallel_stage_failure_semantics.2.2.2 "q" [1] "u" "qid"
      ⟨true, [], .failure, some "boom", "nt"⟩ ⟨[], []⟩ "boom" (Or.inl rfl) rfl

/-! ## DedupEngine (`chat/index.ts`, dedup-sources function): `mergePair` -/

/-- Row of the `sources` table (fields relevant to dedup merging). -/
structure SourceRow where
  id : String
  source_type : String
  external_id : Option String
  doi : Option String
  url : String
  title : String
  snippet : String
  embedding : Emb
  deriving Repr, DecidableEq

/-- Row of the `connections` table (fields relevant to merging). -/
structure Conn where
  query_id : String
  source_a : String
  source_b : String
  relationship : String
  strength : ℚ
  deriving Repr, DecidableEq

/-- The tables touched by `mergePair`. -/
structure DedupDb where
  sources : List SourceRow
  connections : List Conn
  deriving Repr, DecidableEq

/-- `select ... from sources where id = x` followed by `.single()`. -/
def getSourceRow (db : DedupDb) (x : String) : Option SourceRow :=
  single? (db.sources.filter (fun s => s.id == x))

/-- `typePriority` of `mergePair`: `arxiv: 3, openalex: 2, search: 1`, anything
else `?? 0`. -/
def typePriority (t : String) : ℕ :=
  if t == "arxiv" then 3 else if t == "openalex" then 2 else if t == "search" then 1 else 0

/-- First merge step: `update connections set source_a = winner where source_a = loser`. -/
def repointA (w l : String) (db : DedupDb) : DedupDb :=
  { db with connections := db.connections.map (fun (c : Conn) =>
      if c.source_a == l then { c with source_a := w } else c) }

/-- Second merge step: `update connections set source_b = winner where source_b = loser`. -/
def repointB (w l : String) (db : DedupDb) : DedupDb :=
  { db with connections := db.connections.map (fun (c : Conn) =>
      if c.source_b == l then { c with source_b := w } else c) }

/-- Third merge step: read the loser's DOI; if present and the winner lacks one,
`update sources set doi = loserDoi where id = winner`. -/
def copyDoiStep (w l : String) (db : DedupDb) : DedupDb :=
  match getSourceRow db l with
  | none => db
  | some lrow =>
    match lrow.doi with
    | none => db
    | some d =>
      match getSourceRow db w with
      | none => db
      | some wrow =>
        match wrow.doi with
        | some _ => db
        | none =>
          { db with sources := db.sources.map (fun (s : SourceRow) =>
              if s.id == w then { s with doi := some d } else s) }

/-- Final merge step: `delete from sources where id = loser`. -/
def deleteSource (l : String) (db : DedupDb) : DedupDb :=
  { db with sources := db.sources.filter (fun s => !(s.id == l)) }

/-- The four sequential database operations of `mergePair`, applied in source
order: re-point `source_a`, re-point `source_b`, conditional DOI copy, delete
the loser. -/
def mergePairDb (w l : String) (db : DedupDb) : DedupDb :=
  deleteSource l (copyDoiStep w l (repointB w l (repointA w l db)))

/-- The intermediate states a concurrent reader could observe during
`mergePair`: before any step, and after each of the four awaited updates. -/
def mergeTrace (w l : String) (db : DedupDb) : List DedupDb :=
  [db,
   repointA w l db,
   repointB w l (repointA w l db),
   copyDoiStep w l (repointB w l (repointA w l db)),
   mergePairDb w l db]

/-- `mergePair` (`chat/index.ts`): picks the winner by origin-type priority
(`aPriority >= bPriority` keeps the first argument) and runs the four merge
steps; returns the new state with `{winner, loser}`. -/
def mergePair (aId bId aTy bTy : String) (db : DedupDb) :
    DedupDb × String × String :=
  let aPriority := typePriority aTy
  let bPriority := typePriority bTy
  let winnerId := if aPriority ≥ bPriority then aId else bId
  let loserId := if winnerId == aId then bId else aId
  (mergePairDb winnerId loserId db, winnerId, loserId)

/-- Referential integrity of the connections table: every connection endpoint
names an existing source row. -/
def refOk (db : DedupDb) : Bool :=
  db.connections.all (fun c =>
    db.sources.any (fun s => s.id == c.source_a) &&
    db.sources.any (fun s => s.id == c.source_b))

lemma sourceFilter_map (f : SourceRow → SourceRow) (hf : ∀ s, (f s).id = s.id)
    (l : List SourceRow) (x : String) :
    (l.map f).filter (fun s => s.id == x) = (l.filter (fun s => s.id == x)).map f := by
  induction l with
  | nil => simp
  | cons a r ih =>
    simp only [List.map_cons, List.filter_cons, hf]
    cases hb : (a.id == x) <;> simp [hb, ih]

lemma any_id_map (f : SourceRow → SourceRow) (hf : ∀ s, (f s).id = s.id)
    (l : List SourceRow) (x : String) :
    (l.map f).any (fun s => s.id == x) = l.any (fun s => s.id == x) := by
  induction l with
  | nil => rfl
  | cons a r ih => simp [hf, ih]

lemma copyDoiStep_connections (w l : String) (db : DedupDb) :
    (copyDoiStep w l db).connections = db.connections := by
  unfold copyDoiStep
  repeat' split
  all_goals rfl

lemma copyDoiStep_sources_any (w l : String) (db : DedupDb) (x : String) :
    (copyDoiStep w l db).sources.any (fun s => s.id == x)
      = db.sources.any (fun s => s.id == x) := by
  unfold copyDoiStep
  repeat' split
  all_goals first
    | rfl
    | exact any_id_map _ (fun s => by cases hb : (s.id == w) <;> simp [hb]) _ _

/-- The net effect of the two re-point updates on a single connection row. -/
def substConn (w l : String) (c : Conn) : Conn :=
  { c with source_a := if c.source_a == l then w else c.source_a,
           source_b := if c.source_b == l then w else c.source_b }

lemma repoint_conn_eq (w l : String) (c : Conn) :
    (fun (c : Conn) => if c.source_b == l then { c with source_b := w } else c)
      ((fun (c : Conn) => if c.source_a == l then { c with source_a := w } else c) c)
      = substConn w l c := by
  unfold substConn
  cases ha : (c.source_a == l) <;> cases hb : (c.source_b == l) <;> simp [ha, hb]

lemma mergePairDb_connections (w l : String) (db : DedupDb) :
    (mergePairDb w l db).connections = db.connections.map (substConn w l) := by
  unfold mergePairDb deleteSource
  simp only [copyDoiStep_connections]
  unfold repointB repointA
  simp only [List.map_map]
  exact List.map_congr_left (fun c _ => repoint_conn_eq w l c)

lemma deleteSource_getSourceRow_self (l : String) (db : DedupDb) :
    getSourceRow (deleteSource l db) l = none := by
  unfold getSourceRow deleteSource single?
  simp only [List.filter_filter]
  have : db.sources.filter (fun s => s.id == l && !(s.id == l)) = [] := by
    simp only [List.filter_eq_nil_iff]
    intro a _
    cases hb : (a.id == l) <;> simp [hb]
  rw [this]

lemma connAll_congr (l : List Conn) (p q : Conn → Bool) (h : ∀ a ∈ l, p a = q a) :
    l.all p = l.all q := by
  induction l with
  | nil => rfl
  | cons a r ih =>
    simp only [List.all_cons, h a (by simp)]
    rw [ih (fun x hx => h x (by simp [hx]))]

lemma refOk_iff (db : DedupDb) : refOk db = true ↔
    ∀ c ∈ db.connections, db.sources.any (fun s => s.id == c.source_a) = true ∧
      db.sources.any (fun s => s.id == c.source_b) = true := by
  simp [refOk, List.all_eq_true, Bool.and_eq_true]

lemma refOk_copyDoiStep (w l : String) (db : DedupDb) :
    refOk (copyDoiStep w l db) = refOk db := by
  unfold refOk
  rw [copyDoiStep_connections]
  exact connAll_congr _ _ _ (fun c _ => by
    rw [copyDoiStep_sources_any, copyDoiStep_sources_any])

lemma any_filter_ne (ls : List SourceRow) (x l : String) (hx : x ≠ l)
    (h : ls.any (fun s => s.id == x) = true) :
    (ls.filter (fun s => !(s.id == l))).any (fun s => s.id == x) = true := by
  simp only [List.any_eq_true, beq_iff_eq] at h ⊢
  obtain ⟨s, hs, hid⟩ := h
  refine ⟨s, List.mem_filter.mpr ⟨hs, ?_⟩, hid⟩
  simp [hid, hx]

lemma deleteSource_getSourceRow_ne (x l : String) (db : DedupDb) (h : x ≠ l) :
    getSourceRow (deleteSource l db) x = getSourceRow db x := by
  unfold getSourceRow deleteSource
  simp only [List.filter_filter]
  congr 1
  apply List.filter_congr
  intro a _
  cases hb : (a.id == x)
  · simp [hb]
  · have : a.id = x := by simpa using hb
    simp [hb, this, h]

lemma copyDoiStep_getSourceRow (w l x : String) (db : DedupDb)
    (lrow wrow r : SourceRow) (d : String)
    (hl : getSourceRow db l = some lrow) (hld : lrow.doi = some d)
    (hw : getSourceRow db w = some wrow) (hwd : wrow.doi = none)
    (hx : getSourceRow db x = some r) :
    getSourceRow (copyDoiStep w l db) x
      = some (if r.id == w then { r with doi := some d } else r) := by
  have hfil : db.sources.filter (fun s => s.id == x) = [r] :=
    single?_eq_some.mp (by simpa [getSourceRow] using hx)
  unfold copyDoiStep
  rw [hl]
  simp only [hld, hw, hwd]
  unfold getSourceRow
  simp only
  rw [sourceFilter_map _ (fun s => by cases hb : (s.id == w) <;> simp [hb]) _ x, hfil]
  simp [single?]

lemma copyDoiStep_eq_of_no_loser (w l : String) (db : DedupDb)
    (h : getSourceRow db l = none) : copyDoiStep w l db = db := by
  unfold copyDoiStep
  rw [h]

lemma copyDoiStep_eq_of_loser_no_doi (w l : String) (db : DedupDb) (lrow : SourceRow)
    (hl : getSourceRow db l = some lrow) (h : lrow.doi = none) : copyDoiStep w l db = db := by
  unfold copyDoiStep
  rw [hl]
  simp only [h]

lemma copyDoiStep_eq_of_no_winner (w l : String) (db : DedupDb) (lrow : SourceRow) (d : String)
    (hl : getSourceRow db l = some lrow) (hld : lrow.doi = some d)
    (hw : getSourceRow db w = none) : copyDoiStep w l db = db := by
  unfold copyDoiStep
  rw [hl]
  simp only [hld, hw]

lemma copyDoiStep_eq_of_winner_doi (w l : String) (db : DedupDb)
    (lrow wrow : SourceRow) (d d' : String)
    (hl : getSourceRow db l = some lrow) (hld : lrow.doi = some d)
    (hw : getSourceRow db w = some wrow) (hwd : wrow.doi = some d') :
    copyDoiStep w l db = db := by
  unfold copyDoiStep
  rw [hl]
  simp only [hld, hw, hwd]

lemma copyDoiStep_mem_other (w l : String) (db : DedupDb) (s : SourceRow)
    (hs : s ∈ db.sources) (hne : s.id ≠ w) : s ∈ (copyDoiStep w l db).sources := by
  unfold copyDoiStep
  repeat' split
  all_goals first
    | exact hs
    | · refine List.mem_map.mpr ⟨s, hs, ?_⟩
        simp [hne]

/-- The winner of `mergePair` is always the first argument when the first
priority is at least the second, else the second argument; the loser is the
other argument. -/
lemma mergePair_winner_eq (aId bId aTy bTy : String) (db : DedupDb) :
    (mergePair aId bId aTy bTy db).2.1
      = (if typePriority aTy ≥ typePriority bTy then aId else bId) := by
  unfold mergePair
  by_cases h : typePriority aTy ≥ typePriority bTy <;> simp [h]

lemma mergePair_loser_eq (aId bId aTy bTy : String) (db : DedupDb) (hne : aId ≠ bId) :
    (mergePair aId bId aTy bTy db).2.2
      = (if typePriority aTy ≥ typePriority bTy then bId else aId) := by
  unfold mergePair
  by_cases h : typePriority aTy ≥ typePriority bTy
  · simp [h]
  · simp [h, Ne.symm hne]

lemma mergePair_ne (aId bId aTy bTy : String) (db : DedupDb) (hne : aId ≠ bId) :
    (mergePair aId bId aTy bTy db).2.1 ≠ (mergePair aId bId aTy bTy db).2.2 := by
  rw [mergePair_winner_eq, mergePair_loser_eq aId bId aTy bTy db hne]
  by_cases h : typePriority aTy ≥ typePriority bTy
  · simp [h, hne]
  · simp [h, Ne.symm hne]

lemma mergePair_db_eq (aId bId aTy bTy : String) (db : DedupDb) :
    (mergePair aId bId aTy bTy db).1
      = mergePairDb (mergePair aId bId aTy bTy db).2.1
          (mergePair aId bId aTy bTy db).2.2 db := rfl

lemma substConn_ne_l (w l : String) (hwl : w ≠ l) (c : Conn) :
    (substConn w l c).source_a ≠ l ∧ (substConn w l c).source_b ≠ l := by
  unfold substConn
  constructor
  · dsimp only
    by_cases hb : (c.source_a == l) = true
    · simp [hb, hwl]
    · have h' : c.source_a ≠ l := by simpa using hb
      simpa [hb] using h'
  · dsimp only
    by_cases hb : (c.source_b == l) = true
    · simp [hb, hwl]
    · have h' : c.source_b ≠ l := by simpa using hb
      simpa [hb] using h'

lemma refOk_conn_map (w : String) (db : DedupDb) (f : Conn → Conn)
    (hwin : db.sources.any (fun s => s.id == w) = true)
    (href : refOk db = true)
    (hf : ∀ c, ((f c).source_a = c.source_a ∨ (f c).source_a = w) ∧
               ((f c).source_b = c.source_b ∨ (f c).source_b = w)) :
    refOk { db with connections := db.connections.map f } = true := by
  rw [refOk_iff]
  intro c hc
  obtain ⟨c₀, hc₀, rfl⟩ := List.mem_map.mp hc
  have h₀ := (refOk_iff db).mp href c₀ hc₀
  constructor
  · rcases (hf c₀).1 with h | h <;> rw [show ((f c₀).source_a : String) = _ from h]
    · exact h₀.1
    · exact hwin
  · rcases (hf c₀).2 with h | h <;> rw [show ((f c₀).source_b : String) = _ from h]
    · exact h₀.2
    · exact hwin

/-- **C2.**  After `mergePair(A, B)`: every connection that referenced the loser
now references the winner (the connection table is exactly the original one
with both endpoint columns substituted), no connection references the loser,
the loser row is not retrievable, and — because the two re-points run before
the delete — every intermediate state of the merge keeps referential
integrity: no observable state has a connection endpoint naming a missing
source row. -/
theorem mergePair_merge_safety (aId bId aTy bTy : String) (db db' : DedupDb) (w l : String)
    (heq : mergePair aId bId aTy bTy db = (db', w, l))
    (hne : aId ≠ bId)
    (hwin : db.sources.any (fun s => s.id == w) = true)
    (href : refOk db = true) :
    db'.connections = db.connections.map (substConn w l) ∧
    (∀ c ∈ db'.connections, c.source_a ≠ l ∧ c.source_b ≠ l) ∧
    getSourceRow db' l = none ∧
    (∀ s ∈ mergeTrace w l db, refOk s = true) := by
  have hwl : w ≠ l := by
    have h := mergePair_ne aId bId aTy bTy db hne
    rw [heq] at h; exact h
  have hdb' : db' = mergePairDb w l db := by
    have h := mergePair_db_eq aId bId aTy bTy db
    rw [heq] at h; exact h
  subst hdb'
  have h1 : refOk (repointA w l db) = true := by
    apply refOk_conn_map w db _ hwin href
    intro c
    constructor
    · by_cases hb : (c.source_a == l) = true <;> simp [hb]
    · by_cases hb : (c.source_a == l) = true <;> simp [hb]
  have hstate2 : repointB w l (repointA w l db)
      = { db with connections := db.connections.map (substConn w l) } := by
    simp only [repointA, repointB, List.map_map]
    congr 1
    exact List.map_congr_left (fun c _ => repoint_conn_eq w l c)
  have h2 : refOk (repointB w l (repointA w l db)) = true := by
    rw [hstate2]
    apply refOk_conn_map w db _ hwin href
    intro c
    unfold substConn
    constructor
    · by_cases hb : (c.source_a == l) = true <;> simp [hb]
    · by_cases hb : (c.source_b == l) = true <;> simp [hb]
  have h3 : refOk (copyDoiStep w l (repointB w l (repointA w l db))) = true := by
    rw [refOk_copyDoiStep]; exact h2
  have h4 : refOk (mergePairDb w l db) = true := by
    rw [refOk_iff]
    intro c hc
    rw [mergePairDb_connections] at hc
    obtain ⟨c₀, hc₀, rfl⟩ := List.mem_map.mp hc
    have hcs3 : substConn w l c₀
        ∈ (copyDoiStep w l (repointB w l (repointA w l db))).connections := by
      rw [copyDoiStep_connections, hstate2]
      exact List.mem_map.mpr ⟨c₀, hc₀, rfl⟩
    have hend := (refOk_iff _).mp h3 _ hcs3
    have hnel := substConn_ne_l w l hwl c₀
    constructor
    · exact any_filter_ne _ _ _ hnel.1 hend.1
    · exact any_filter_ne _ _ _ hnel.2 hend.2
  refine ⟨mergePairDb_connections w l db, ?_, ?_, ?_⟩
  · intro c hc
    rw [mergePairDb_connections] at hc
    obtain ⟨c₀, _, rfl⟩ := List.mem_map.mp hc
    exact substConn_ne_l w l hwl c₀
  · exact deleteSource_getSourceRow_self l _
  · intro s hs
    simp only [mergeTrace, List.mem_cons, List.not_mem_nil, or_false] at hs
    rcases hs with rfl | rfl | rfl | rfl | rfl
    · exact href
    · exact h1
    · exact h2
    · exact h3
    · exact h4

/-- Witness for `mergePair_merge_safety`: merging a `search` duplicate into an
`arxiv` source re-points the one connection that referenced the loser and
deletes the loser, with referential integrity at every step. -/
theorem mergePair_merge_safety_witness :
    (mergePair "sa" "sb" "arxiv" "search"
        ⟨[⟨"sa", "arxiv", some "ax1", none, "u1", "t1", "s1", [(1 : ℚ)]⟩,
          ⟨"sb", "search", none, some "10.1/x", "u2", "t2", "s2", [(1 : ℚ)]⟩],
         [⟨"q1", "sb", "sa", "agrees", 1⟩]⟩
      = (⟨[⟨"sa", "arxiv", some "ax1", some "10.1/x", "u1", "t1", "s1", [(1 : ℚ)]⟩],
          [⟨"q1", "sa", "sa", "agrees", 1⟩]⟩, "sa", "sb")) ∧
    ((⟨[⟨"sa", "arxiv", some "ax1", some "10.1/x", "u1", "t1", "s1", [(1 : ℚ)]⟩],
        [⟨"q1", "sa", "sa", "agrees", 1⟩]⟩ : DedupDb).connections
      = ([⟨"q1", "sb", "sa", "agrees", 1⟩] : List Conn).map (substConn "sa" "sb") ∧
      (∀ c ∈ (⟨[⟨"sa", "arxiv", some "ax1", some "10.1/x", "u1", "t1", "s1", [(1 : ℚ)]⟩],
          [⟨"q1", "sa", "sa", "agrees", 1⟩]⟩ : DedupDb).connections,
        c.source_a ≠ "sb" ∧ c.source_b ≠ "sb") ∧
      getSourceRow ⟨[⟨"sa", "arxiv", some "ax1", some "10.1/x", "u1", "t1", "s1", [(1 : ℚ)]⟩],
          [⟨"q1", "sa", "sa", "agrees", 1⟩]⟩ "sb" = none ∧
      (∀ s ∈ mergeTrace "sa" "sb"
          ⟨[⟨"sa", "arxiv", some "ax1", none, "u1", "t1", "s1", [(1 : ℚ)]⟩,
            ⟨"sb", "search", none, some "10.1/x", "u2", "t2", "s2", [(1 : ℚ)]⟩],
           [⟨"q1", "sb", "sa", "agrees", 1⟩]⟩, refOk s = true)) := by
  constructor
  · rfl
  · exact mergePair_merge_safety "sa" "sb" "arxiv" "search"
      ⟨[⟨"sa", "arxiv", some "ax1", none, "u1", "t1", "s1", [(1 : ℚ)]⟩,
        ⟨"sb", "search", none, some "10.1/x", "u2", "t2", "s2", [(1 : ℚ)]⟩],
       [⟨"q1", "sb", "sa", "agrees", 1⟩]⟩
      ⟨[⟨"sa", "arxiv", some "ax1", some "10.1/x", "u1", "t1", "s1", [(1 : ℚ)]⟩],
       [⟨"q1", "sa", "sa", "agrees", 1⟩]⟩ "sa" "sb" rfl
      (by decide) (by rfl) (by rfl)

lemma repoint_getSourceRow (w l x : String) (db : DedupDb) :
    getSourceRow (repointB w l (repointA w l db)) x = getSourceRow db x := rfl

lemma getSourceRow_id (db : DedupDb) (x : String) (r : SourceRow)
    (h : getSourceRow db x = some r) : r.id = x := by
  have hfil : db.sources.filter (fun s => s.id == x) = [r] :=
    single?_eq_some.mp (by simpa [getSourceRow] using h)
  have hm : r ∈ db.sources.filter (fun s => s.id == x) := by
    rw [hfil]; exact List.mem_singleton.mpr rfl
  simpa using (List.mem_filter.mp hm).2

/-- **C7.**  The winner of `mergePair` is chosen by the fixed priority order
`arxiv (3) > openalex (2) > search (1) > anything else (0)`; a strictly higher
priority wins and equal priorities keep the first argument; when the loser
carries a DOI the winner lacks, the DOI is copied onto the winner while the
loser row still exists, and only then is the loser deleted. -/
theorem mergePair_priority_and_doi :
    (typePriority "arxiv" = 3 ∧ typePriority "openalex" = 2 ∧ typePriority "search" = 1 ∧
      ∀ t, t ≠ "arxiv" → t ≠ "openalex" → t ≠ "search" → typePriority t = 0) ∧
    (∀ (aId bId aTy bTy : String) (db : DedupDb),
      (typePriority aTy ≥ typePriority bTy → (mergePair aId bId aTy bTy db).2.1 = aId) ∧
      (typePriority aTy < typePriority bTy → (mergePair aId bId aTy bTy db).2.1 = bId)) ∧
    (∀ (w l : String) (db : DedupDb) (lrow wrow : SourceRow) (d : String), w ≠ l →
      getSourceRow db l = some lrow → lrow.doi = some d →
      getSourceRow db w = some wrow → wrow.doi = none →
      getSourceRow (copyDoiStep w l (repointB w l (repointA w l db))) w
          = some { wrow with doi := some d } ∧
      getSourceRow (copyDoiStep w l (repointB w l (repointA w l db))) l = some lrow ∧
      getSourceRow (mergePairDb w l db) w = some { wrow with doi := some d } ∧
      getSourceRow (mergePairDb w l db) l = none) := by
  refine ⟨⟨rfl, rfl, rfl, ?_⟩, ?_, ?_⟩
  · intro t h1 h2 h3
    simp [typePriority, h1, h2, h3]
  · intro aId bId aTy bTy db
    constructor
    · intro h
      rw [mergePair_winner_eq]
      simp [h]
    · intro h
      rw [mergePair_winner_eq]
      simp [not_le.mpr h]
  · intro w l db lrow wrow d hwl hl hld hw hwd
    have hl2 : getSourceRow (repointB w l (repointA w l db)) l = some lrow := by
      rw [repoint_getSourceRow]; exact hl
    have hw2 : getSourceRow (repointB w l (repointA w l db)) w = some wrow := by
      rw [repoint_getSourceRow]; exact hw
    have hwid : (wrow.id == w) = true := by
      simp [getSourceRow_id db w wrow hw]
    have hlid : (lrow.id == w) = false := by
      have := getSourceRow_id db l lrow hl
      simp [this, Ne.symm hwl]
    have h3w : getSourceRow (copyDoiStep w l (repointB w l (repointA w l db))) w
        = some { wrow with doi := some d } := by
      rw [copyDoiStep_getSourceRow w l w _ lrow wrow wrow d hl2 hld hw2 hwd hw2, hwid]
      simp
    have h3l : getSourceRow (copyDoiStep w l (repointB w l (repointA w l db))) l
        = some lrow := by
      rw [copyDoiStep_getSourceRow w l l _ lrow wrow lrow d hl2 hld hw2 hwd hl2, hlid]
      simp
    refine ⟨h3w, h3l, ?_, ?_⟩
    · show getSourceRow (deleteSource l _) w = _
      rw [deleteSource_getSourceRow_ne w l _ hwl]
      exact h3w
    · exact deleteSource_getSourceRow_self l _

/-- Witness for `mergePair_priority_and_doi`: an `openalex`/`search` pair keeps
the first argument, and a loser DOI is copied onto a DOI-less winner before the
loser disappears. -/
theorem mergePair_priority_and_doi_witness :
    ((mergePair "x" "y" "openalex" "search"
        (⟨[], []⟩ : DedupDb)).2.1 = "x") ∧
    ((mergePair "x" "y" "search" "arxiv"
        (⟨[], []⟩ : DedupDb)).2.1 = "y") ∧
    (getSourceRow (copyDoiStep "w" "v" (repointB "w" "v" (repointA "w" "v"
        ⟨[⟨"w", "arxiv", some "ax", none, "u", "t", "s", []⟩,
          ⟨"v", "search", none, some "10.9/q", "u2", "t2", "s2", []⟩], []⟩)))
        "w" = some ⟨"w", "arxiv", some "ax", some "10.9/q", "u", "t", "s", []⟩ ∧
      getSourceRow (copyDoiStep "w" "v" (repointB "w" "v" (repointA "w" "v"
        ⟨[⟨"w", "arxiv", some "ax", none, "u", "t", "s", []⟩,
          ⟨"v", "search", none, some "10.9/q", "u2", "t2", "s2", []⟩], []⟩)))
        "v" = some ⟨"v", "search", none, some "10.9/q", "u2", "t2", "s2", []⟩ ∧
      getSourceRow (mergePairDb "w" "v"
        ⟨[⟨"w", "arxiv", some "ax", none, "u", "t", "s", []⟩,
          ⟨"v", "search", none, some "10.9/q", "u2", "t2", "s2", []⟩], []⟩)
        "w" = some ⟨"w", "arxiv", some "ax", some "10.9/q", "u", "t", "s", []⟩ ∧
      getSourceRow (mergePairDb "w" "v"
        ⟨[⟨"w", "arxiv", some "ax", none, "u", "t", "s", []⟩,
          ⟨"v", "search", none, some "10.9/q", "u2", "t2", "s2", []⟩], []⟩)
        "v" = none) := by
  refine ⟨?_, ?_, ?_⟩
  · exact (mergePair_priority_and_doi.2.1 "x" "y" "openalex" "search" ⟨[], []⟩).1 (by decide)
  · exact (mergePair_priority_and_doi.2.1 "x" "y" "search" "arxiv" ⟨[], []⟩).2 (by decide)
  · exact mergePair_priority_and_doi.2.2 "w" "v"
      ⟨[⟨"w", "arxiv", some "ax", none, "u", "t", "s", []⟩,
        ⟨"v", "search", none, some "10.9/q", "u2", "t2", "s2", []⟩], []⟩
      ⟨"v", "search", none, some "10.9/q", "u2", "t2", "s2", []⟩
      ⟨"w", "arxiv", some "ax", none, "u", "t", "s", []⟩
      "10.9/q" (by decide) rfl rfl rfl rfl

/-- **C10.**  `mergePair` never modifies any field of the winner row other than
its DOI: rows other than winner and loser survive unchanged, the winner
survives with every non-DOI field intact, and its DOI differs from before only
when the winner had none and the loser had one (in which case it becomes the
loser's DOI). -/
theorem mergePair_winner_frame (aId bId aTy bTy : String) (db db' : DedupDb) (w l : String)
    (wrow : SourceRow)
    (heq : mergePair aId bId aTy bTy db = (db', w, l))
    (hne : aId ≠ bId)
    (hw : getSourceRow db w = some wrow) :
    (∀ s ∈ db.sources, s.id ≠ w → s.id ≠ l → s ∈ db'.sources) ∧
    (∃ wrow', getSourceRow db' w = some wrow' ∧
      wrow'.id = wrow.id ∧ wrow'.source_type = wrow.source_type ∧
      wrow'.external_id = wrow.external_id ∧ wrow'.url = wrow.url ∧
      wrow'.title = wrow.title ∧ wrow'.snippet = wrow.snippet ∧
      wrow'.embedding = wrow.embedding ∧
      (wrow'.doi = wrow.doi ∨
        (wrow.doi = none ∧ ∃ lrow d, getSourceRow db l = some lrow ∧
          lrow.doi = some d ∧ wrow'.doi = some d))) := by
  have hwl : w ≠ l := by
    have h := mergePair_ne aId bId aTy bTy db hne
    rw [heq] at h; exact h
  have hdb' : db' = mergePairDb w l db := by
    have h := mergePair_db_eq aId bId aTy bTy db
    rw [heq] at h; exact h
  subst hdb'
  have hw2 : getSourceRow (repointB w l (repointA w l db)) w = some wrow := by
    rw [repoint_getSourceRow]; exact hw
  constructor
  · intro s hs hsw hsl
    have hmem : s ∈ (copyDoiStep w l (repointB w l (repointA w l db))).sources :=
      copyDoiStep_mem_other w l _ s hs hsw
    show s ∈ (copyDoiStep w l (repointB w l (repointA w l db))).sources.filter
      (fun s => !(s.id == l))
    exact List.mem_filter.mpr ⟨hmem, by simp [hsl]⟩
  · rcases hlr : getSourceRow db l with _ | lrow
    · have hnoop : copyDoiStep w l (repointB w l (repointA w l db))
          = repointB w l (repointA w l db) :=
        copyDoiStep_eq_of_no_loser w l _ (by rw [repoint_getSourceRow]; exact hlr)
      refine ⟨wrow, ?_, rfl, rfl, rfl, rfl, rfl, rfl, rfl, Or.inl rfl⟩
      show getSourceRow (deleteSource l _) w = _
      rw [deleteSource_getSourceRow_ne w l _ hwl, hnoop]
      exact hw2
    · have hl2 : getSourceRow (repointB w l (repointA w l db)) l = some lrow := by
        rw [repoint_getSourceRow]; exact hlr
      rcases hld : lrow.doi with _ | d
      · have hnoop : copyDoiStep w l (repointB w l (repointA w l db))
            = repointB w l (repointA w l db) :=
          copyDoiStep_eq_of_loser_no_doi w l _ lrow hl2 hld
        refine ⟨wrow, ?_, rfl, rfl, rfl, rfl, rfl, rfl, rfl, Or.inl rfl⟩
        show getSourceRow (deleteSource l _) w = _
        rw [deleteSource_getSourceRow_ne w l _ hwl, hnoop]
        exact hw2
      · rcases hwd : wrow.doi with _ | d'
        · have hwid : (wrow.id == w) = true := by
            simp [getSourceRow_id db w wrow hw]
          have h3w : getSourceRow (copyDoiStep w l (repointB w l (repointA w l db))) w
              = some { wrow with doi := some d } := by
            rw [copyDoiStep_getSourceRow w l w _ lrow wrow wrow d hl2 hld hw2 hwd hw2, hwid]
            simp
          refine ⟨{ wrow with doi := some d }, ?_, rfl, rfl, rfl, rfl, rfl, rfl, rfl,
            Or.inr ⟨rfl, lrow, d, rfl, hld, rfl⟩⟩
          show getSourceRow (deleteSource l _) w = _
          rw [deleteSource_getSourceRow_ne w l _ hwl]
          exact h3w
        · have hnoop : copyDoiStep w l (repointB w l (repointA w l db))
              = repointB w l (repointA w l db) :=
            copyDoiStep_eq_of_winner_doi w l _ lrow wrow d d' hl2 hld hw2 hwd
          refine ⟨wrow, ?_, rfl, rfl, rfl, rfl, rfl, rfl, rfl, Or.inl hwd⟩
          show getSourceRow (deleteSource l _) w = _
          rw [deleteSource_getSourceRow_ne w l _ hwl, hnoop]
          exact hw2

/-- Witness for `mergePair_winner_frame`: the same concrete merge as in the
merge-safety witness, checked for the winner's frame condition. -/
theorem mergePair_winner_frame_witness :
    (∀ s ∈ (⟨[⟨"sa", "arxiv", some "ax1", none, "u1", "t1", "s1", [(1 : ℚ)]⟩,
          ⟨"sb", "search", none, some "10.1/x", "u2", "t2", "s2", [(1 : ℚ)]⟩],
         [⟨"q1", "sb", "sa", "agrees", 1⟩]⟩ : DedupDb).sources,
        s.id ≠ "sa" → s.id ≠ "sb" →
        s ∈ (⟨[⟨"sa", "arxiv", some "ax1", some "10.1/x", "u1", "t1", "s1", [(1 : ℚ)]⟩],
          [⟨"q1", "sa", "sa", "agrees", 1⟩]⟩ : DedupDb).sources) ∧
    (∃ wrow', getSourceRow
        ⟨[⟨"sa", "arxiv", some "ax1", some "10.1/x", "u1", "t1", "s1", [(1 : ℚ)]⟩],
         [⟨"q1", "sa", "sa", "agrees", 1⟩]⟩ "sa" = some wrow' ∧
      wrow'.id = (⟨"sa", "arxiv", some "ax1", none, "u1", "t1", "s1", [(1 : ℚ)]⟩ : SourceRow).id ∧
      wrow'.source_type
        = (⟨"sa", "arxiv", some "ax1", none, "u1", "t1", "s1", [(1 : ℚ)]⟩ : SourceRow).source_type ∧
      wrow'.external_id
        = (⟨"sa", "arxiv", some "ax1", none, "u1", "t1", "s1", [(1 : ℚ)]⟩ : SourceRow).external_id ∧
      wrow'.url = (⟨"sa", "arxiv", some "ax1", none, "u1", "t1", "s1", [(1 : ℚ)]⟩ : SourceRow).url ∧
      wrow'.title = (⟨"sa", "arxiv", some "ax1", none, "u1", "t1", "s1", [(1 : ℚ)]⟩ : SourceRow).title ∧
      wrow'.snippet
        = (⟨"sa", "arxiv", some "ax1", none, "u1", "t1", "s1", [(1 : ℚ)]⟩ : SourceRow).snippet ∧
      wrow'.embedding
        = (⟨"sa", "arxiv", some "ax1", none, "u1", "t1", "s1", [(1 : ℚ)]⟩ : SourceRow).embedding ∧
      (wrow'.doi = (⟨"sa", "arxiv", some "ax1", none, "u1", "t1", "s1", [(1 : ℚ)]⟩ : SourceRow).doi ∨
        ((⟨"sa", "arxiv", some "ax1", none, "u1", "t1", "s1", [(1 : ℚ)]⟩ : SourceRow).doi = none ∧
          ∃ lrow d, getSourceRow
            ⟨[⟨"sa", "arxiv", some "ax1", none, "u1", "t1", "s1", [(1 : ℚ)]⟩,
              ⟨"sb", "search", none, some "10.1/x", "u2", "t2", "s2", [(1 : ℚ)]⟩],
             [⟨"q1", "sb", "sa", "agrees", 1⟩]⟩ "sb" = some lrow ∧
            lrow.doi = some d ∧ wrow'.doi = some d))) :=
  mergePair_winner_frame "sa" "sb" "arxiv" "search"
    ⟨[⟨"sa", "arxiv", some "ax1", none, "u1", "t1", "s1", [(1 : ℚ)]⟩,
      ⟨"sb", "search", none, some "10.1/x", "u2", "t2", "s2", [(1 : ℚ)]⟩],
     [⟨"q1", "sb", "sa", "agrees", 1⟩]⟩
    ⟨[⟨"sa", "arxiv", some "ax1", some "10.1/x", "u1", "t1", "s1", [(1 : ℚ)]⟩],
     [⟨"q1", "sa", "sa", "agrees", 1⟩]⟩ "sa" "sb"
    ⟨"sa", "arxiv", some "ax1", none, "u1", "t1", "s1", [(1 : ℚ)]⟩ rfl (by decide) rfl

/-! ## ResearchScheduler (`insights/index.ts`): `processDirection` and the
auto-research batch loop -/

/-- Row of the `research_directions` table (fields written by the scheduler;
`completed_at_set` records whether `completed_at` has been written). -/
structure DirectionRow where
  id : String
  topic_a_id : String
  topic_b_id : String
  bridge_query : String
  status : String
  bridge_score_before : ℚ
  bridge_score_after : Option ℚ
  sources_found : Option ℕ
  error : Option String
  query_id : Option String
  completed_at_set : Bool
  deriving Repr, DecidableEq

/-- One candidate returned by the `identify_research_directions` RPC. -/
structure DirectionCandidate where
  topic_a_id : String
  topic_b_id : String
  topic_a_label : String
  topic_b_label : String
  best_existing_bridge : ℚ
  deriving Repr, DecidableEq

/-- Scheduler state: the `research_directions` table. -/
structure SchedState where
  directions : List DirectionRow
  deriving Repr, DecidableEq

/-- Oracle describing the outcomes of the external calls made while processing
one research direction (`Except.error` models a thrown exception). -/
structure DirOracle where
  /-- `user_id` of the topics row owning `topic_a` (none: lookup found no row) -/
  userLookup : Option String
  /-- `generateBridgeQuery` result (throws `ExternalServiceError` on failure) -/
  bridgeQuery : Except String String
  /-- `crypto.randomUUID()` for the new direction row -/
  dirId : String
  /-- error of the `research_directions` insert, when it fails -/
  dirInsertErr : Option String
  /-- id of the inserted `queries` row, or the insert error -/
  queryInsert : Except String String
  /-- `searchExa` result: the returned documents (urls), or a thrown error -/
  search : Except String (List String)
  /-- `embedTexts` outcome -/
  embed : Except String Unit
  /-- error of the `sources` insert, when it fails -/
  sourceInsertErr : Option String
  /-- outcome of the parallel classify/cross-query/analysis stage -/
  parallelStage : Except String Unit
  /-- `computeBridgeScore` output (that call absorbs its own RPC errors) -/
  bridgeScoreAfter : ℚ
  deriving Repr

/-- `update research_directions set ... where id = did`. -/
def updateDirRow (did : String) (f : DirectionRow → DirectionRow)
    (l : List DirectionRow) : List DirectionRow :=
  l.map (fun r => if r.id == did then f r else r)

/-- `processDirection` (`insights/index.ts`): look up the owning user, generate
the bridge query, insert the direction row in `searching` state, then run the
pipeline inside a try block whose catch marks the row `failed` with the error
text and rethrows.  Zero search results transition the row to `exhausted`
(`sources_found = 0`); otherwise the row ends `completed` with `sources_found`
and a freshly recomputed bridge score. -/
def processDirection (o : DirOracle) (dir : DirectionCandidate) (st : SchedState) :
    SchedState × Except String (ℕ × ℚ) :=
  match o.userLookup with
  | none => (st, .error ("No user found for topic " ++ dir.topic_a_id))
  | some _ =>
    match o.bridgeQuery with
    | .error e => (st, .error e)
    | .ok bq =>
      match o.dirInsertErr with
      | some e => (st, .error e)
      | none =>
        let st1 : SchedState :=
          { directions := st.directions ++
              [{ id := o.dirId, topic_a_id := dir.topic_a_id, topic_b_id := dir.topic_b_id,
                 bridge_query := bq, status := "searching",
                 bridge_score_before := dir.best_existing_bridge,
                 bridge_score_after := none, sources_found := none, error := none,
                 query_id := none, completed_at_set := false }] }
        let fail := fun (e : String) =>
          let failedRows := updateDirRow o.dirId (fun r => { r with status := "failed", error := some e, completed_at_set := true }) st1.directions
          (({ directions := failedRows } : SchedState),
           (Except.error e : Except String (ℕ × ℚ)))
        match o.queryInsert with
        | .error e => fail e
        | .ok qid =>
          match o.search with
          | .error e => fail e
          | .ok results =>
            if results.length = 0 then
              let exhaustedRows := updateDirRow o.dirId (fun r => { r with status := "exhausted", sources_found := some 0, completed_at_set := true }) st1.directions
              ({ directions := exhaustedRows },
               .ok (0, dir.best_existing_bridge))
            else
              match o.embed with
              | .error e => fail e
              | .ok _ =>
                match o.sourceInsertErr with
                | some e => fail e
                | none =>
                  match o.parallelStage with
                  | .error e => fail e
                  | .ok _ =>
                    let completedRows := updateDirRow o.dirId (fun r => { r with status := "completed", query_id := some qid, sources_found := some results.length, bridge_score_after := some o.bridgeScoreAfter, completed_at_set := true }) st1.directions
                    ({ directions := completedRows },
                     .ok (results.length, o.bridgeScoreAfter))

/-- One element of the handler's in-memory `results` array. -/
structure BatchItem where
  topic_a : String
  topic_b : String
  sources_found : ℕ
  bridge_score_before : ℚ
  bridge_score_after : ℚ
  status : String
  error : Option String
  deriving Repr, DecidableEq

/-- The auto-research handler loop (`insights/index.ts`): processes directions
sequentially; an exception from `processDirection` is caught, recorded as a
`failed` batch item, and the loop continues with the next direction. -/
def runDirections (jobs : List (DirOracle × DirectionCandidate)) (st : SchedState) :
    SchedState × List BatchItem :=
  jobs.foldl
    (fun acc job =>
      match processDirection job.1 job.2 acc.1 with
      | (st', .ok (n, after)) =>
          (st', acc.2 ++ [⟨job.2.topic_a_label, job.2.topic_b_label, n,
            job.2.best_existing_bridge, after, "completed", none⟩])
      | (st', .error e) =>
          (st', acc.2 ++ [⟨job.2.topic_a_label, job.2.topic_b_label, 0,
            job.2.best_existing_bridge, job.2.best_existing_bridge, "failed", some e⟩]))
    (st, [])

/-- The `searching` row inserted by `processDirection` before the pipeline runs. -/
def searchingRow (o : DirOracle) (dir : DirectionCandidate) (bq : String) : DirectionRow :=
  { id := o.dirId, topic_a_id := dir.topic_a_id, topic_b_id := dir.topic_b_id,
    bridge_query := bq, status := "searching", bridge_score_before := dir.best_existing_bridge,
    bridge_score_after := none, sources_found := none, error := none, query_id := none,
    completed_at_set := false }

/-- The terminal row written when the search returned zero results. -/
def exhaustedRow (o : DirOracle) (dir : DirectionCandidate) (bq : String) : DirectionRow :=
  { searchingRow o dir bq with status := "exhausted", sources_found := some 0, completed_at_set := true }

/-- The terminal row written when the pipeline completed with `n` sources. -/
def completedRow (o : DirOracle) (dir : DirectionCandidate) (bq qid : String) (n : ℕ) : DirectionRow :=
  { searchingRow o dir bq with status := "completed", query_id := some qid, sources_found := some n, bridge_score_after := some o.bridgeScoreAfter, completed_at_set := true }

/-- The terminal row written by the catch block when the pipeline threw `e`. -/
def failedRow (o : DirOracle) (dir : DirectionCandidate) (bq e : String) : DirectionRow :=
  { searchingRow o dir bq with status := "failed", error := some e, completed_at_set := true }

lemma updateDirRow_fresh (did : String) (f : DirectionRow → DirectionRow)
    (l : List DirectionRow) (h : ∀ x ∈ l, x.id ≠ did) : updateDirRow did f l = l := by
  unfold updateDirRow
  induction l with
  | nil => simp
  | cons a r ih =>
    have ha : (a.id == did) = false := by simpa using h a (by simp)
    simp only [List.map_cons, ha, Bool.false_eq_true, if_false, List.cons.injEq, true_and]
    exact ih (fun x hx => h x (by simp [hx]))

lemma updateDirRow_append (did : String) (f : DirectionRow → DirectionRow)
    (l : List DirectionRow) (r : DirectionRow) (hfresh : ∀ x ∈ l, x.id ≠ did)
    (hr : r.id = did) :
    updateDirRow did f (l ++ [r]) = l ++ [f r] := by
  unfold updateDirRow
  rw [List.map_append]
  congr 1
  · exact updateDirRow_fresh did f l hfresh
  · simp [hr]

lemma processDirection_exhausted (o : DirOracle) (dir : DirectionCandidate) (st : SchedState)
    (u bq qid : String)
    (hu : o.userLookup = some u) (hbq : o.bridgeQuery = .ok bq)
    (hins : o.dirInsertErr = none) (hq : o.queryInsert = .ok qid)
    (hs : o.search = .ok []) (hfresh : ∀ r ∈ st.directions, r.id ≠ o.dirId) :
    processDirection o dir st
      = (⟨st.directions ++ [exhaustedRow o dir bq]⟩, .ok (0, dir.best_existing_bridge)) := by
  unfold processDirection
  rw [hu, hbq, hins, hq, hs]
  dsimp only
  simp only [List.length_nil, if_true]
  rw [updateDirRow_append _ _ _ _ hfresh rfl]
  rfl

lemma processDirection_completed (o : DirOracle) (dir : DirectionCandidate) (st : SchedState)
    (u bq qid : String) (results : List String)
    (hu : o.userLookup = some u) (hbq : o.bridgeQuery = .ok bq)
    (hins : o.dirInsertErr = none) (hq : o.queryInsert = .ok qid)
    (hs : o.search = .ok results) (hnz : results ≠ [])
    (hem : o.embed = .ok ()) (hsrc : o.sourceInsertErr = none)
    (hpar : o.parallelStage = .ok ())
    (hfresh : ∀ r ∈ st.directions, r.id ≠ o.dirId) :
    processDirection o dir st
      = (⟨st.directions ++ [completedRow o dir bq qid results.length]⟩,
         .ok (results.length, o.bridgeScoreAfter)) := by
  have hlen : ¬ (results.length = 0) := by
    simpa [List.length_eq_zero] using hnz
  unfold processDirection
  rw [hu, hbq, hins, hq, hs]
  dsimp only
  rw [if_neg hlen, hem, hsrc, hpar]
  dsimp only
  rw [updateDirRow_append _ _ _ _ hfresh rfl]
  rfl

/-- The failure modes of `processDirection` that occur inside the try block,
i.e. after the direction row has been inserted in `searching` state. -/
def failsAfterRowInsert (o : DirOracle) (e : String) : Prop :=
  (∃ u, o.userLookup = some u) ∧ (∃ bq, o.bridgeQuery = .ok bq) ∧ o.dirInsertErr = none ∧
  (o.queryInsert = .error e ∨
   ∃ qid, o.queryInsert = .ok qid ∧
     (o.search = .error e ∨
      ∃ results, o.search = .ok results ∧ results ≠ [] ∧
        (o.embed = .error e ∨
         (o.embed = .ok () ∧
          (o.sourceInsertErr = some e ∨
           (o.sourceInsertErr = none ∧ o.parallelStage = .error e))))))

lemma processDirection_failed (o : DirOracle) (dir : DirectionCandidate) (st : SchedState)
    (e : String) (h : failsAfterRowInsert o e)
    (hfresh : ∀ r ∈ st.directions, r.id ≠ o.dirId) :
    ∃ bq, o.bridgeQuery = .ok bq ∧
      processDirection o dir st = (⟨st.directions ++ [failedRow o dir bq e]⟩, .error e) := by
  obtain ⟨⟨u, hu⟩, ⟨bq, hbq⟩, hins, hrest⟩ := h
  refine ⟨bq, hbq, ?_⟩
  unfold processDirection
  rw [hu, hbq, hins]
  dsimp only
  rcases hrest with hq | ⟨qid, hq, hrest⟩
  · rw [hq]
    dsimp only
    rw [updateDirRow_append _ _ _ _ hfresh rfl]
    rfl
  · rw [hq]
    dsimp only
    rcases hrest with hs | ⟨results, hs, hnz, hrest⟩
    · rw [hs]
      dsimp only
      rw [updateDirRow_append _ _ _ _ hfresh rfl]
      rfl
    · have hlen : ¬ (results.length = 0) := by
        simpa [List.length_eq_zero] using hnz
      rw [hs]
      dsimp only
      rw [if_neg hlen]
      rcases hrest with hem | ⟨hem, hrest⟩
      · rw [hem]
        dsimp only
        rw [updateDirRow_append _ _ _ _ hfresh rfl]
        rfl
      · rw [hem]
        dsimp only
        rcases hrest with hsrc | ⟨hsrc, hpar⟩
        · rw [hsrc]
          dsimp only
          rw [updateDirRow_append _ _ _ _ hfresh rfl]
          rfl
        · rw [hsrc]
          dsimp only
          rw [hpar]
          dsimp only
          rw [updateDirRow_append _ _ _ _ hfresh rfl]
          rfl

/-- All external calls of one direction succeed (zero search results allowed). -/
def dirOk (o : DirOracle) : Prop :=
  (∃ u, o.userLookup = some u) ∧ (∃ bq, o.bridgeQuery = .ok bq) ∧ o.dirInsertErr = none ∧
  (∃ qid, o.queryInsert = .ok qid) ∧ (∃ results, o.search = .ok results) ∧
  o.embed = .ok () ∧ o.sourceInsertErr = none ∧ o.parallelStage = .ok ()

lemma processDirection_dirOk (o : DirOracle) (dir : DirectionCandidate) (st : SchedState)
    (h : dirOk o) (hfresh : ∀ r ∈ st.directions, r.id ≠ o.dirId) :
    ∃ row n after, processDirection o dir st = (⟨st.directions ++ [row]⟩, .ok (n, after)) ∧
      row.id = o.dirId ∧ (row.status = "completed" ∨ row.status = "exhausted") := by
  obtain ⟨⟨u, hu⟩, ⟨bq, hbq⟩, hins, ⟨qid, hq⟩, ⟨results, hs⟩, hem, hsrc, hpar⟩ := h
  cases results with
  | nil =>
    exact ⟨exhaustedRow o dir bq, 0, dir.best_existing_bridge,
      processDirection_exhausted o dir st u bq qid hu hbq hins hq hs hfresh, rfl, Or.inr rfl⟩
  | cons a rs =>
    exact ⟨completedRow o dir bq qid (a :: rs).length, (a :: rs).length, o.bridgeScoreAfter,
      processDirection_completed o dir st u bq qid (a :: rs) hu hbq hins hq hs (by simp)
        hem hsrc hpar hfresh, rfl, Or.inl rfl⟩

/-- **C5.**  When all external calls succeed: a direction whose search returns
zero results transitions to `exhausted` with `sources_found = 0`; otherwise it
transitions to `completed`, recording `sources_found` equal to the number of
results and the freshly recomputed bridge score as `bridge_score_after`. -/
theorem processDirection_terminal_states :
    (∀ (o : DirOracle) (dir : DirectionCandidate) (st : SchedState) (u bq qid : String),
      o.userLookup = some u → o.bridgeQuery = .ok bq → o.dirInsertErr = none →
      o.queryInsert = .ok qid → o.search = .ok [] →
      (∀ r ∈ st.directions, r.id ≠ o.dirId) →
      processDirection o dir st
        = (⟨st.directions ++ [exhaustedRow o dir bq]⟩, .ok (0, dir.best_existing_bridge)) ∧
      (exhaustedRow o dir bq).status = "exhausted" ∧
      (exhaustedRow o dir bq).sources_found = some 0) ∧
    (∀ (o : DirOracle) (dir : DirectionCandidate) (st : SchedState) (u bq qid : String)
       (results : List String),
      o.userLookup = some u → o.bridgeQuery = .ok bq → o.dirInsertErr = none →
      o.queryInsert = .ok qid → o.search = .ok results → results ≠ [] →
      o.embed = .ok () → o.sourceInsertErr = none → o.parallelStage = .ok () →
      (∀ r ∈ st.directions, r.id ≠ o.dirId) →
      processDirection o dir st
        = (⟨st.directions ++ [completedRow o dir bq qid results.length]⟩,
           .ok (results.length, o.bridgeScoreAfter)) ∧
      (completedRow o dir bq qid results.length).status = "completed" ∧
      (completedRow o dir bq qid results.length).sources_found = some results.length ∧
      (completedRow o dir bq qid results.length).bridge_score_after
        = some o.bridgeScoreAfter) := by
  constructor
  · intro o dir st u bq qid hu hbq hins hq hs hfresh
    exact ⟨processDirection_exhausted o dir st u bq qid hu hbq hins hq hs hfresh, rfl, rfl⟩
  · intro o dir st u bq qid results hu hbq hins hq hs hnz hem hsrc hpar hfresh
    exact ⟨processDirection_completed o dir st u bq qid results hu hbq hins hq hs hnz
      hem hsrc hpar hfresh, rfl, rfl, rfl⟩

/-- Witness for `processDirection_terminal_states`: a zero-result direction
ends `exhausted`; a two-result direction ends `completed` with
`sources_found = 2` and the recomputed bridge score. -/
theorem processDirection_terminal_states_witness :
    (processDirection ⟨some "u", .ok "bq", "d1", none, .ok "q1", .ok [], .ok (), none, .ok (), 1/2⟩
        ⟨"ta", "tb", "A", "B", 0⟩ ⟨[]⟩
      = (⟨[] ++ [exhaustedRow ⟨some "u", .ok "bq", "d1", none, .ok "q1", .ok [], .ok (), none, .ok (), 1/2⟩ ⟨"ta", "tb", "A", "B", 0⟩ "bq"]⟩,
         .ok (0, (⟨"ta", "tb", "A", "B", 0⟩ : DirectionCandidate).best_existing_bridge)) ∧
      (exhaustedRow ⟨some "u", .ok "bq", "d1", none, .ok "q1", .ok [], .ok (), none, .ok (), 1/2⟩ ⟨"ta", "tb", "A", "B", 0⟩ "bq").status = "exhausted" ∧
      (exhaustedRow ⟨some "u", .ok "bq", "d1", none, .ok "q1", .ok [], .ok (), none, .ok (), 1/2⟩ ⟨"ta", "tb", "A", "B", 0⟩ "bq").sources_found = some 0) ∧
    (processDirection ⟨some "u", .ok "bq", "d2", none, .ok "q2", .ok ["r1", "r2"], .ok (), none, .ok (), 3/4⟩
        ⟨"ta", "tb", "A", "B", 0⟩ ⟨[]⟩
      = (⟨[] ++ [completedRow ⟨some "u", .ok "bq", "d2", none, .ok "q2", .ok ["r1", "r2"], .ok (), none, .ok (), 3/4⟩ ⟨"ta", "tb", "A", "B", 0⟩ "bq" "q2" (["r1", "r2"] : List String).length]⟩,
         .ok ((["r1", "r2"] : List String).length,
           (⟨some "u", .ok "bq", "d2", none, .ok "q2", .ok ["r1", "r2"], .ok (), none, .ok (), 3/4⟩ : DirOracle).bridgeScoreAfter)) ∧
      (completedRow ⟨some "u", .ok "bq", "d2", none, .ok "q2", .ok ["r1", "r2"], .ok (), none, .ok (), 3/4⟩ ⟨"ta", "tb", "A", "B", 0⟩ "bq" "q2" (["r1", "r2"] : List String).length).status = "completed" ∧
      (completedRow ⟨some "u", .ok "bq", "d2", none, .ok "q2", .ok ["r1", "r2"], .ok (), none, .ok (), 3/4⟩ ⟨"ta", "tb", "A", "B", 0⟩ "bq" "q2" (["r1", "r2"] : List String).length).sources_found = some (["r1", "r2"] : List String).length ∧
      (completedRow ⟨some "u", .ok "bq", "d2", none, .ok "q2", .ok ["r1", "r2"], .ok (), none, .ok (), 3/4⟩ ⟨"ta", "tb", "A", "B", 0⟩ "bq" "q2" (["r1", "r2"] : List String).length).bridge_score_after
        = some (⟨some "u", .ok "bq", "d2", none, .ok "q2", .ok ["r1", "r2"], .ok (), none, .ok (), 3/4⟩ : DirOracle).bridgeScoreAfter) := by
  constructor
  · exact processDirection_terminal_states.1
      ⟨some "u", .ok "bq", "d1", none, .ok "q1", .ok [], .ok (), none, .ok (), 1/2⟩
      ⟨"ta", "tb", "A", "B", 0⟩ ⟨[]⟩ "u" "bq" "q1" rfl rfl rfl rfl rfl (by simp)
  · exact processDirection_terminal_states.2
      ⟨some "u", .ok "bq", "d2", none, .ok "q2", .ok ["r1", "r2"], .ok (), none, .ok (), 3/4⟩
      ⟨"ta", "tb", "A", "B", 0⟩ ⟨[]⟩ "u" "bq" "q2" ["r1", "r2"] rfl rfl rfl rfl rfl
      (by simp) rfl rfl rfl (by simp)

/-- **C6, counterexample.**  The claim says any exception thrown while
processing a direction marks that direction's row as `failed`.  But exceptions
thrown before the direction row is inserted — here the topic-owner lookup of
direction 2 finding no user, equally the `generateBridgeQuery` call or the row
insert itself throwing — leave no `research_directions` row at all: the batch
records a failure for direction 2, yet the final table holds only the terminal
rows of directions 1 and 3 and no row is marked `failed`. -/
theorem scheduler_failed_mark_cex :
    ((runDirections
        [(⟨some "u", .ok "bq1", "d1", none, .ok "q1", .ok ["r1"], .ok (), none, .ok (), 0⟩,
          ⟨"ta1", "tb1", "A1", "B1", 0⟩),
         (⟨none, .ok "bq2", "d2", none, .ok "q2", .ok ["r2"], .ok (), none, .ok (), 0⟩,
          ⟨"ta2", "tb2", "A2", "B2", 0⟩),
         (⟨some "u", .ok "bq3", "d3", none, .ok "q3", .ok ["r3"], .ok (), none, .ok (), 0⟩,
          ⟨"ta3", "tb3", "A3", "B3", 0⟩)] ⟨[]⟩).2.map (fun i => (i.status, i.error))
      = [("completed", none), ("failed", some "No user found for topic ta2"),
         ("completed", none)]) ∧
    ((runDirections
        [(⟨some "u", .ok "bq1", "d1", none, .ok "q1", .ok ["r1"], .ok (), none, .ok (), 0⟩,
          ⟨"ta1", "tb1", "A1", "B1", 0⟩),
         (⟨none, .ok "bq2", "d2", none, .ok "q2", .ok ["r2"], .ok (), none, .ok (), 0⟩,
          ⟨"ta2", "tb2", "A2", "B2", 0⟩),
         (⟨some "u", .ok "bq3", "d3", none, .ok "q3", .ok ["r3"], .ok (), none, .ok (), 0⟩,
          ⟨"ta3", "tb3", "A3", "B3", 0⟩)] ⟨[]⟩).1.directions.map (fun r => (r.id, r.status))
      = [("d1", "completed"), ("d3", "completed")]) := by
  constructor
  · rfl
  · rfl

/-- **C6, amended.**  An exception thrown after a direction's row has been
created marks that row `failed` with the error text (non-empty when the
exception's message is non-empty) and does not prevent the remaining
directions of the batch from being processed to a terminal state
(`completed` or `exhausted`); an exception thrown before the row is created
(user lookup, bridge-query generation, or the row insert itself) leaves no row
to mark, but the batch still continues. -/
theorem scheduler_failure_isolation
    (o1 o2 o3 : DirOracle) (d1 d2 d3 : DirectionCandidate) (st : SchedState) (e : String)
    (h1 : dirOk o1) (h2 : failsAfterRowInsert o2 e) (h3 : dirOk o3) (he : e ≠ "")
    (hf1 : ∀ r ∈ st.directions, r.id ≠ o1.dirId)
    (hf2 : ∀ r ∈ st.directions, r.id ≠ o2.dirId)
    (hf3 : ∀ r ∈ st.directions, r.id ≠ o3.dirId)
    (h12 : o1.dirId ≠ o2.dirId) (h13 : o1.dirId ≠ o3.dirId) (h23 : o2.dirId ≠ o3.dirId) :
    ∃ r1 r2 r3,
      (runDirections [(o1, d1), (o2, d2), (o3, d3)] st).1.directions
        = st.directions ++ [r1, r2, r3] ∧
      r1.id = o1.dirId ∧ (r1.status = "completed" ∨ r1.status = "exhausted") ∧
      r2.id = o2.dirId ∧ r2.status = "failed" ∧ r2.error = some e ∧ e ≠ "" ∧
      r3.id = o3.dirId ∧ (r3.status = "completed" ∨ r3.status = "exhausted") := by
  obtain ⟨row1, n1, a1, hp1, hid1, hst1⟩ := processDirection_dirOk o1 d1 st h1 hf1
  have hf2' : ∀ r ∈ ((⟨st.directions ++ [row1]⟩ : SchedState)).directions,
      r.id ≠ o2.dirId := by
    intro r hr
    rcases List.mem_append.mp hr with hr | hr
    · exact hf2 r hr
    · have hh := List.mem_singleton.mp hr
      subst hh
      rw [hid1]; exact h12
  obtain ⟨bq2, hbq2, hp2⟩ := processDirection_failed o2 d2 ⟨st.directions ++ [row1]⟩ e h2 hf2'
  have hf3' : ∀ r ∈ ((⟨(st.directions ++ [row1]) ++ [failedRow o2 d2 bq2 e]⟩ : SchedState)).directions,
      r.id ≠ o3.dirId := by
    intro r hr
    rcases List.mem_append.mp hr with hr | hr
    · rcases List.mem_append.mp hr with hr | hr
      · exact hf3 r hr
      · have hh := List.mem_singleton.mp hr
        subst hh
        rw [hid1]; exact h13
    · have hh := List.mem_singleton.mp hr
      subst hh
      exact h23
  obtain ⟨row3, n3, a3, hp3, hid3, hst3⟩ := processDirection_dirOk o3 d3
    ⟨(st.directions ++ [row1]) ++ [failedRow o2 d2 bq2 e]⟩ h3 hf3'
  refine ⟨row1, failedRow o2 d2 bq2 e, row3, ?_, hid1, hst1, rfl, rfl, rfl, he, hid3, hst3⟩
  unfold runDirections
  simp only [List.foldl_cons, List.foldl_nil]
  rw [hp1]
  dsimp only
  rw [hp2]
  dsimp only
  rw [hp3]
  simp [List.append_assoc]

/-- Witness for `scheduler_failure_isolation`: direction 2's search throws
after its row was created; directions 1 and 3 still reach terminal rows. -/
theorem scheduler_failure_isolation_witness :
    ∃ r1 r2 r3,
      (runDirections
        [(⟨some "u", .ok "bq1", "e1", none, .ok "q1", .ok ["r1"], .ok (), none, .ok (), 0⟩,
          ⟨"ta1", "tb1", "A1", "B1", 0⟩),
         (⟨some "u", .ok "bq2", "e2", none, .ok "q2", .error "exa down", .ok (), none, .ok (), 0⟩,
          ⟨"ta2", "tb2", "A2", "B2", 0⟩),
         (⟨some "u", .ok "bq3", "e3", none, .ok "q3", .ok [], .ok (), none, .ok (), 0⟩,
          ⟨"ta3", "tb3", "A3", "B3", 0⟩)] ⟨[]⟩).1.directions
        = ((⟨[]⟩ : SchedState)).directions ++ [r1, r2, r3] ∧
      r1.id = "e1" ∧ (r1.status = "completed" ∨ r1.status = "exhausted") ∧
      r2.id = "e2" ∧ r2.status = "failed" ∧ r2.error = some "exa down" ∧ "exa down" ≠ "" ∧
      r3.id = "e3" ∧ (r3.status = "completed" ∨ r3.status = "exhausted") :=
  scheduler_failure_isolation
    ⟨some "u", .ok "bq1", "e1", none, .ok "q1", .ok ["r1"], .ok (), none, .ok (), 0⟩
    ⟨some "u", .ok "bq2", "e2", none, .ok "q2", .error "exa down", .ok (), none, .ok (), 0⟩
    ⟨some "u", .ok "bq3", "e3", none, .ok "q3", .ok [], .ok (), none, .ok (), 0⟩
    ⟨"ta1", "tb1", "A1", "B1", 0⟩ ⟨"ta2", "tb2", "A2", "B2", 0⟩ ⟨"ta3", "tb3", "A3", "B3", 0⟩
    ⟨[]⟩ "exa down"
    ⟨⟨"u", rfl⟩, ⟨"bq1", rfl⟩, rfl, ⟨"q1", rfl⟩, ⟨["r1"], rfl⟩, rfl, rfl, rfl⟩
    ⟨⟨"u", rfl⟩, ⟨"bq2", rfl⟩, rfl, Or.inr ⟨"q2", rfl, Or.inl rfl⟩⟩
    ⟨⟨"u", rfl⟩, ⟨"bq3", rfl⟩, rfl, ⟨"q3", rfl⟩, ⟨[], rfl⟩, rfl, rfl, rfl⟩
    (by decide) (by simp) (by simp) (by simp) (by decide) (by decide) (by decide)

/-! ## OpenAlex ingestion (`ingest-openalex`): `embedAndInsertBatch` -/

/-- An `OpenAlexWork` (fields used by `embedAndInsertBatch`). -/
structure OpenAlexWork where
  openalexId : String
  doi : Option String
  title : String
  abstract : String
  url : String
  deriving Repr, DecidableEq

/-- Dedup layer 1 membership test: a non-deleted `openalex` row with this
external id exists (`.eq("source_type","openalex").in("external_id", ids)`). -/
def idExists (sources : List SourceRow) (x : String) : Bool :=
  sources.any (fun s => s.source_type == "openalex" && s.external_id == some x)

/-- Dedup layer 2 membership test: a row with this DOI exists
(`.in("doi", doisToCheck)`, any origin type). -/
def doiExists (sources : List SourceRow) (d : String) : Bool :=
  sources.any (fun s => s.doi == some d)

/-- The `(source_type, external_id)` upsert-conflict key test. -/
def keyExists (sources : List SourceRow) (r : SourceRow) : Bool :=
  sources.any (fun s => s.source_type == r.source_type && s.external_id == r.external_id)

/-- The `sources` row built for a new work (the DB-assigned row id plays no
role in deduplication and is modelled as empty). -/
def toSourceRow (embedFn : String → Emb) (w : OpenAlexWork) : SourceRow :=
  { id := "", source_type := "openalex", external_id := some w.openalexId,
    doi := w.doi, url := w.url, title := w.title, snippet := w.abstract.take 500,
    embedding := embedFn (w.title ++ "\n\n" ++ w.abstract) }

/-- `upsert(..., { onConflict: "source_type,external_id", ignoreDuplicates: true })`:
rows whose conflict key already exists (in the table or earlier in the batch)
are skipped, the rest are inserted. -/
def upsertIgnoreDuplicates (sources rows : List SourceRow) : List SourceRow :=
  rows.foldl (fun acc r => if keyExists acc r then acc else acc ++ [r]) sources

/-- `doisToCheck` of `embedAndInsertBatch`: DOIs of works not already matched
by external id. -/
def doisToCheck (works : List OpenAlexWork) (sources : List SourceRow) : List String :=
  (works.filter (fun w => w.doi.isSome && !(idExists sources w.openalexId))).filterMap
    (fun w => w.doi)

/-- `existingDois`: the checked DOIs that are already present. -/
def existingDois (works : List OpenAlexWork) (sources : List SourceRow) : List String :=
  (doisToCheck works sources).filter (fun d => doiExists sources d)

/-- `newWorks`: works surviving both dedup layers. -/
def newWorks (works : List OpenAlexWork) (sources : List SourceRow) : List OpenAlexWork :=
  works.filter (fun w =>
    !(idExists sources w.openalexId) &&
    !(match w.doi with
      | some d => (existingDois works sources).contains d
      | none => false))

/-- `embedAndInsertBatch` (`ingest-openalex`): filters out works whose external
id or DOI already exists, embeds the rest and upserts them with duplicates
ignored; returns the new `sources` table with the `{inserted, skipped}`
counters. -/
def embedAndInsertBatch (embedFn : String → Emb) (works : List OpenAlexWork)
    (sources : List SourceRow) : List SourceRow × ℕ × ℕ :=
  if works.length = 0 then (sources, 0, 0)
  else if (newWorks works sources).length = 0 then (sources, 0, works.length)
  else (upsertIgnoreDuplicates sources ((newWorks works sources).map (toSourceRow embedFn)),
        ((newWorks works sources).map (toSourceRow embedFn)).length,
        works.length - (newWorks works sources).length)

lemma upsert_cons (acc : List SourceRow) (r : SourceRow) (rs : List SourceRow) :
    upsertIgnoreDuplicates acc (r :: rs)
      = upsertIgnoreDuplicates (if keyExists acc r then acc else acc ++ [r]) rs := rfl

lemma upsert_append : ∀ (rows acc : List SourceRow),
    ∃ extra, upsertIgnoreDuplicates acc rows = acc ++ extra := by
  intro rows
  induction rows with
  | nil => exact fun acc => ⟨[], by simp [upsertIgnoreDuplicates]⟩
  | cons r rs ih =>
    intro acc
    rw [upsert_cons]
    by_cases h : keyExists acc r = true
    · rw [if_pos h]; exact ih acc
    · rw [if_neg h]
      obtain ⟨extra, he⟩ := ih (acc ++ [r])
      exact ⟨[r] ++ extra, by rw [he, List.append_assoc]⟩

lemma any_mono (a extra : List SourceRow) (p : SourceRow → Bool) (h : a.any p = true) :
    (a ++ extra).any p = true := by
  simp only [List.any_append, h, Bool.true_or]

lemma keyExists_self (r : SourceRow) : keyExists [r] r = true := by
  simp [keyExists]

lemma upsert_covers : ∀ (rows acc : List SourceRow), ∀ r ∈ rows,
    keyExists (upsertIgnoreDuplicates acc rows) r = true := by
  intro rows
  induction rows with
  | nil => intro acc r hr; simp at hr
  | cons r0 rs ih =>
    intro acc r hr
    rw [upsert_cons]
    rcases List.mem_cons.mp hr with rfl | hr
    · by_cases h : keyExists acc r = true
      · rw [if_pos h]
        obtain ⟨extra, he⟩ := upsert_append rs acc
        rw [he]
        unfold keyExists at h ⊢
        exact any_mono acc extra _ h
      · rw [if_neg h]
        obtain ⟨extra, he⟩ := upsert_append rs (acc ++ [r])
        rw [he]
        unfold keyExists
        simp [List.any_append]
    · exact ih _ r hr

lemma keyExists_toSourceRow (ls : List SourceRow) (embedFn : String → Emb)
    (w : OpenAlexWork) :
    keyExists ls (toSourceRow embedFn w) = idExists ls w.openalexId := rfl

lemma notKeep_cases (works : List OpenAlexWork) (sources : List SourceRow)
    (w : OpenAlexWork) (hw : w ∈ works) (h : w ∉ newWorks works sources) :
    idExists sources w.openalexId = true ∨
      ∃ d, w.doi = some d ∧ doiExists sources d = true := by
  have hp : ¬ ((!(idExists sources w.openalexId) &&
      !(match w.doi with
        | some d => (existingDois works sources).contains d
        | none => false)) = true) :=
    fun hh => h (List.mem_filter.mpr ⟨hw, hh⟩)
  cases hb : idExists sources w.openalexId
  · right
    have hm : (match w.doi with
        | some d => (existingDois works sources).contains d
        | none => false) = true := by
      cases hm : (match w.doi with
        | some d => (existingDois works sources).contains d
        | none => false)
      · exfalso
        apply hp
        rw [hb, hm]
        rfl
      · rfl
    cases hd : w.doi with
    | none => rw [hd] at hm; simp at hm
    | some d =>
      rw [hd] at hm
      have hmem : d ∈ existingDois works sources := List.elem_iff.mp hm
      exact ⟨d, rfl, (List.mem_filter.mp hmem).2⟩
  · left; rfl

lemma firstRun_mono (embedFn : String → Emb) (works : List OpenAlexWork)
    (sources : List SourceRow) :
    ∃ extra, (embedAndInsertBatch embedFn works sources).1 = sources ++ extra := by
  unfold embedAndInsertBatch
  by_cases h0 : works.length = 0
  · rw [if_pos h0]; exact ⟨[], by simp⟩
  · rw [if_neg h0]
    by_cases h1 : (newWorks works sources).length = 0
    · rw [if_pos h1]; exact ⟨[], by simp⟩
    · rw [if_neg h1]; exact upsert_append _ sources

lemma firstRun_covers (embedFn : String → Emb) (works : List OpenAlexWork)
    (sources : List SourceRow) (w : OpenAlexWork) (hw : w ∈ works) :
    idExists (embedAndInsertBatch embedFn works sources).1 w.openalexId = true ∨
      ∃ d, w.doi = some d ∧ doiExists sources d = true := by
  unfold embedAndInsertBatch
  by_cases h0 : works.length = 0
  · exact absurd hw (by rw [List.length_eq_zero.mp h0]; simp)
  · rw [if_neg h0]
    by_cases h1 : (newWorks works sources).length = 0
    · rw [if_pos h1]
      have hnot : w ∉ newWorks works sources := by
        rw [List.length_eq_zero.mp h1]; simp
      exact notKeep_cases works sources w hw hnot
    · rw [if_neg h1]
      by_cases hmem : w ∈ newWorks works sources
      · left
        have hrow : toSourceRow embedFn w ∈ (newWorks works sources).map (toSourceRow embedFn) :=
          List.mem_map_of_mem _ hmem
        have hc := upsert_covers _ sources _ hrow
        rwa [keyExists_toSourceRow] at hc
      · rcases notKeep_cases works sources w hw hmem with h | h
        · left
          obtain ⟨extra, he⟩ :=
            upsert_append ((newWorks works sources).map (toSourceRow embedFn)) sources
          dsimp only
          rw [he]
          unfold idExists at h ⊢
          exact any_mono sources extra _ h
        · right; exact h

lemma embedAndInsertBatch_noop (embedFn : String → Emb) (works : List OpenAlexWork)
    (srcs : List SourceRow) (h0 : ¬ works.length = 0)
    (h : (newWorks works srcs).length = 0) :
    embedAndInsertBatch embedFn works srcs = (srcs, 0, works.length) := by
  unfold embedAndInsertBatch
  rw [if_neg h0, if_pos h]

/-- **C8.**  Re-ingesting the same batch of works is a no-op on the `sources`
table: the second invocation of `embedAndInsertBatch` filters every work out
(by external id, or by DOI for works skipped on DOI grounds the first time)
and inserts zero rows. -/
theorem embedAndInsertBatch_idempotent (embedFn : String → Emb)
    (works : List OpenAlexWork) (sources : List SourceRow) :
    (embedAndInsertBatch embedFn works (embedAndInsertBatch embedFn works sources).1).1
      = (embedAndInsertBatch embedFn works sources).1 ∧
    (embedAndInsertBatch embedFn works (embedAndInsertBatch embedFn works sources).1).2.1
      = 0 := by
  by_cases h0 : works.length = 0
  · constructor <;> simp [embedAndInsertBatch, h0]
  · have hnw2 : (newWorks works (embedAndInsertBatch embedFn works sources).1).length = 0 := by
      rw [List.length_eq_zero]
      unfold newWorks
      simp only [List.filter_eq_nil_iff]
      intro w hw
      intro hcontra
      rw [Bool.and_eq_true] at hcontra
      obtain ⟨hid, hdoi⟩ := hcontra
      have hidf : idExists (embedAndInsertBatch embedFn works sources).1 w.openalexId = false := by
        cases hx : idExists (embedAndInsertBatch embedFn works sources).1 w.openalexId
        · rfl
        · rw [hx] at hid; simp at hid
      rcases firstRun_covers embedFn works sources w hw with h | ⟨d, hd, hdoiex⟩
      · rw [h] at hidf; simp at hidf
      · have hdc : d ∈ doisToCheck works (embedAndInsertBatch embedFn works sources).1 := by
          unfold doisToCheck
          exact List.mem_filterMap.mpr
            ⟨w, List.mem_filter.mpr ⟨hw, by simp [hd, hidf]⟩, hd⟩
        have hdoi1 : doiExists (embedAndInsertBatch embedFn works sources).1 d = true := by
          obtain ⟨extra, he⟩ := firstRun_mono embedFn works sources
          rw [he]
          unfold doiExists at hdoiex ⊢
          exact any_mono sources extra _ hdoiex
        have hmem : d ∈ existingDois works (embedAndInsertBatch embedFn works sources).1 :=
          List.mem_filter.mpr ⟨hdc, hdoi1⟩
        rw [hd] at hdoi
        dsimp only at hdoi
        have hcd : (existingDois works (embedAndInsertBatch embedFn works sources).1).contains d
            = true := List.elem_iff.mpr hmem
        rw [hcd] at hdoi
        simp at hdoi
    rw [embedAndInsertBatch_noop embedFn works _ h0 hnw2]
    exact ⟨rfl, rfl⟩

/-! ## LLM response parsing (`_shared/llm.ts`): `parseJsonResponse`

`JSON.parse` is modelled by a strict JSON parser over `List Char` (a number
token is kept exactly, as a decimal mantissa/exponent pair; the `\uXXXX`
string escape is not modelled — no theorem below depends on it).  The fallback regex `/\x7b[\s\S]*\x7d/` matches greedily from
the first opening brace to the last closing brace; it is modelled by
`extractBraceSpan`. -/

/-- The opening curly brace character. -/
def lbrace : Char := Char.ofNat 123

/-- The closing curly brace character. -/
def rbrace : Char := Char.ofNat 125

/-- JSON values (`num m e` is the number `m * 10 ^ e`). -/
inductive Json where
  | null
  | bool (b : Bool)
  | num (m : ℤ) (e : ℤ)
  | str (s : List Char)
  | arr (xs : List Json)
  | obj (kvs : List (List Char × Json))

/-- JSON insignificant whitespace. -/
def isWs (c : Char) : Bool :=
  c = ' ' || c = '\t' || c = '\n' || c = '\r'

/-- Drop leading JSON whitespace. -/
def skipWs : List Char → List Char
  | [] => []
  | c :: cs => if isWs c then skipWs cs else c :: cs

/-- Parse the body of a JSON string after the opening quote; returns the
decoded characters and the remainder after the closing quote. -/
def parseStringBody : List Char → Option (List Char × List Char)
  | [] => none
  | c :: cs =>
    if c = '"' then some ([], cs)
    else if c = '\\' then
      match cs with
      | [] => none
      | e :: cs' =>
        let dec : Option Char :=
          if e = '"' then some '"'
          else if e = '\\' then some '\\'
          else if e = '/' then some '/'
          else if e = 'b' then some (Char.ofNat 8)
          else if e = 'f' then some (Char.ofNat 12)
          else if e = 'n' then some '\n'
          else if e = 'r' then some '\r'
          else if e = 't' then some '\t'
          else none
        match dec with
        | none => none
        | some ch =>
          match parseStringBody cs' with
          | none => none
          | some (s, rest) => some (ch :: s, rest)
    else
      match parseStringBody cs with
      | none => none
      | some (s, rest) => some (c :: s, rest)

/-- Decimal digits to a natural number. -/
def digitsToNat (ds : List Char) : ℕ :=
  ds.foldl (fun a c => 10 * a + (c.toNat - 48)) 0

/-- Optional fraction part (`.digits`): its value and its digit count. -/
def parseFrac (cs : List Char) : Option ((ℕ × ℕ) × List Char) :=
  match cs with
  | c :: rest =>
    if c = '.' then
      let p := rest.span (fun d => d.isDigit)
      if p.1 = [] then none
      else some ((digitsToNat p.1, p.1.length), p.2)
    else some ((0, 0), cs)
  | [] => some ((0, 0), cs)

/-- Optional exponent part (`e[+-]?digits`). -/
def parseExp (cs : List Char) : Option (ℤ × List Char) :=
  match cs with
  | c :: rest =>
    if c = 'e' || c = 'E' then
      let sp : Bool × List Char :=
        match rest with
        | d :: rest' =>
          if d = '-' then (true, rest')
          else if d = '+' then (false, rest')
          else (false, rest)
        | [] => (false, rest)
      let p := sp.2.span (fun d => d.isDigit)
      if p.1 = [] then none
      else some (if sp.1 then -(digitsToNat p.1 : ℤ) else (digitsToNat p.1 : ℤ), p.2)
    else some (0, cs)
  | [] => some (0, cs)

/-- Parse a JSON number into an exact mantissa/exponent pair. -/
def parseNumber (cs : List Char) : Option ((ℤ × ℤ) × List Char) :=
  let sp : Bool × List Char :=
    match cs with
    | c :: rest => if c = '-' then (true, rest) else (false, cs)
    | [] => (false, cs)
  let p := sp.2.span (fun d => d.isDigit)
  if p.1 = [] then none
  else if p.1.length > 1 ∧ p.1.headD '0' = '0' then none
  else
    match parseFrac p.2 with
    | none => none
    | some (fr, cs3) =>
      match parseExp cs3 with
      | none => none
      | some (ex, cs4) =>
        let mantissaNat : ℕ := digitsToNat p.1 * 10 ^ fr.2 + fr.1
        let m : ℤ := if sp.1 then -(mantissaNat : ℤ) else (mantissaNat : ℤ)
        some ((m, ex - (fr.2 : ℤ)), cs4)

mutual

/-- Parse one JSON value (fuel-indexed recursion; the callers supply
`input.length + 1` fuel, which bounds the nesting depth). -/
def parseValue : ℕ → List Char → Option (Json × List Char)
  | 0, _ => none
  | fuel + 1, cs =>
    match skipWs cs with
    | [] => none
    | c :: rest =>
      if c = 'n' then
        match rest with
        | 'u' :: 'l' :: 'l' :: rest' => some (.null, rest')
        | _ => none
      else if c = 't' then
        match rest with
        | 'r' :: 'u' :: 'e' :: rest' => some (.bool true, rest')
        | _ => none
      else if c = 'f' then
        match rest with
        | 'a' :: 'l' :: 's' :: 'e' :: rest' => some (.bool false, rest')
        | _ => none
      else if c = '"' then
        match parseStringBody rest with
        | none => none
        | some (s, rest') => some (.str s, rest')
      else if c = '[' then
        match skipWs rest with
        | c2 :: rest2 =>
          if c2 = ']' then some (.arr [], rest2)
          else
            match parseArrayItems fuel rest with
            | none => none
            | some (vs, rest') => some (.arr vs, rest')
        | [] => none
      else if c = lbrace then
        match skipWs rest with
        | c2 :: rest2 =>
          if c2 = rbrace then some (.obj [], rest2)
          else
            match parseObjItems fuel rest with
            | none => none
            | some (kvs, rest') => some (.obj kvs, rest')
        | [] => none
      else if c = '-' || c.isDigit then
        match parseNumber (c :: rest) with
        | none => none
        | some (me, rest') => some (.num me.1 me.2, rest')
      else none

/-- Parse the comma-separated items of a non-empty JSON array, through `]`. -/
def parseArrayItems : ℕ → List Char → Option (List Json × List Char)
  | 0, _ => none
  | fuel + 1, cs =>
    match parseValue fuel cs with
    | none => none
    | some (v, rest) =>
      match skipWs rest with
      | c :: rest' =>
        if c = ',' then
          match parseArrayItems fuel rest' with
          | none => none
          | some (vs, rest'') => some (v :: vs, rest'')
        else if c = ']' then some ([v], rest')
        else none
      | [] => none

/-- Parse the comma-separated members of a non-empty JSON object, through the
closing brace. -/
def parseObjItems : ℕ → List Char → Option (List (List Char × Json) × List Char)
  | 0, _ => none
  | fuel + 1, cs =>
    match skipWs cs with
    | c :: rest =>
      if c = '"' then
        match parseStringBody rest with
        | none => none
        | some (k, rest1) =>
          match skipWs rest1 with
          | c2 :: rest2 =>
            if c2 = ':' then
              match parseValue fuel rest2 with
              | none => none
              | some (v, rest3) =>
                match skipWs rest3 with
                | c3 :: rest4 =>
                  if c3 = ',' then
                    match parseObjItems fuel rest4 with
                    | none => none
                    | some (kvs, rest5) => some ((k, v) :: kvs, rest5)
                  else if c3 = rbrace then some ([(k, v)], rest4)
                  else none
                | [] => none
            else none
          | [] => none
      else none
    | [] => none

end

/-- `JSON.parse`: a strict parse of the whole input (leading and trailing
whitespace allowed). -/
def jsonParse (cs : List Char) : Option Json :=
  match parseValue (cs.length + 1) cs with
  | none => none
  | some (v, rest) => if skipWs rest = [] then some v else none

/-- Everything from the first opening brace to the end. -/
def dropUntilLbrace : List Char → Option (List Char)
  | [] => none
  | c :: cs => if c = lbrace then some (c :: cs) else dropUntilLbrace cs

/-- The longest prefix ending at the last closing brace (none if no closing
brace occurs). -/
def takeToLastRbrace : List Char → Option (List Char)
  | [] => none
  | c :: rest =>
    match takeToLastRbrace rest with
    | some suffix => some (c :: suffix)
    | none => if c = rbrace then some [c] else none

/-- The fallback regex match `content.match(/\x7b[\s\S]*\x7d/)`: greedy, from
the first opening brace to the last closing brace after it. -/
def extractBraceSpan (cs : List Char) : Option (List Char) :=
  (dropUntilLbrace cs).bind takeToLastRbrace

/-- How `parseJsonResponse` can throw: `jsonThrow` is the uncaught exception of
the second `JSON.parse` call on the extracted span; `malformed` is the explicit
`Failed to parse LLM response as JSON` error. -/
inductive LLMParseError where
  | jsonThrow
  | malformed
  deriving Repr, DecidableEq

/-- `parseJsonResponse` (`_shared/llm.ts`): strict parse; on failure, extract
the greedy brace span and parse that (its parse error is not caught); the
malformed-response error is raised only when no brace span exists. -/
def parseJsonResponse (cs : List Char) : Except LLMParseError Json :=
  match jsonParse cs with
  | some v => .ok v
  | none =>
    match extractBraceSpan cs with
    | some span =>
      match jsonParse span with
      | some v => .ok v
      | none => .error .jsonThrow
    | none => .error .malformed

/-- A response wrapping two separate JSON objects in prose. -/
def twoObjectContent : List Char :=
  ['x', lbrace, '"', 'a', '"', ':', '1', rbrace, 'y',
   lbrace, '"', 'b', '"', ':', '2', rbrace, 'z']

/-- The first top-level JSON object inside `twoObjectContent`. -/
def firstObjectSpan : List Char :=
  [lbrace, '"', 'a', '"', ':', '1', rbrace]

/-- **C9, counterexample.**  The claim says that for a non-strict-JSON response
wrapping a JSON object in prose, the parser extracts the *first* top-level JSON
object and returns its parse.  On `x{"a":1}y{"b":2}z` (braces shown for
readability) the first top-level object `{"a":1}` parses fine, but the code's
regex is greedy — it matches from the first `{` to the *last* `}` — so the
extracted span `{"a":1}y{"b":2}` is not valid JSON and the second `JSON.parse`
throws an uncaught `SyntaxError` instead of returning the first object's
parse. -/
theorem parseJsonResponse_first_object_cex :
    parseJsonResponse twoObjectContent = .error .jsonThrow ∧
    extractBraceSpan twoObjectContent
      = some [lbrace, '"', 'a', '"', ':', '1', rbrace, 'y',
              lbrace, '"', 'b', '"', ':', '2', rbrace] ∧
    jsonParse firstObjectSpan = some (.obj [(['a'], .num 1 0)]) := by
  refine ⟨rfl, rfl, rfl⟩

lemma dropUntilLbrace_append (p r : List Char) (hp : ∀ c ∈ p, c ≠ lbrace) :
    dropUntilLbrace (p ++ r) = dropUntilLbrace r := by
  induction p with
  | nil => rfl
  | cons c cs ih =>
    simp only [List.cons_append, dropUntilLbrace, hp c (by simp), if_false]
    exact ih (fun x hx => hp x (by simp [hx]))

lemma takeToLastRbrace_none (b : List Char) (hb : ∀ c ∈ b, c ≠ rbrace) :
    takeToLastRbrace b = none := by
  induction b with
  | nil => rfl
  | cons c cs ih =>
    simp only [takeToLastRbrace, ih (fun x hx => hb x (by simp [hx])), hb c (by simp), if_false]

lemma takeToLastRbrace_append_none (a b : List Char) (hb : takeToLastRbrace b = none) :
    takeToLastRbrace (a ++ b) = takeToLastRbrace a := by
  induction a with
  | nil => simpa using hb
  | cons c cs ih =>
    simp only [List.cons_append, takeToLastRbrace, List.append_eq, ih]

lemma takeToLastRbrace_ends (a : List Char) :
    takeToLastRbrace (a ++ [rbrace]) = some (a ++ [rbrace]) := by
  induction a with
  | nil => simp [takeToLastRbrace]
  | cons c cs ih =>
    simp only [List.cons_append, takeToLastRbrace, List.append_eq, ih]

lemma extractBraceSpan_sandwich (p mid q : List Char)
    (hp : ∀ c ∈ p, c ≠ lbrace) (hq : ∀ c ∈ q, c ≠ rbrace) :
    extractBraceSpan (p ++ (lbrace :: mid ++ [rbrace]) ++ q)
      = some (lbrace :: mid ++ [rbrace]) := by
  unfold extractBraceSpan
  rw [List.append_assoc, dropUntilLbrace_append p _ hp]
  have h1 : dropUntilLbrace ((lbrace :: mid ++ [rbrace]) ++ q)
      = some ((lbrace :: mid ++ [rbrace]) ++ q) := by
    simp [dropUntilLbrace]
  rw [h1]
  show takeToLastRbrace ((lbrace :: mid ++ [rbrace]) ++ q) = _
  rw [takeToLastRbrace_append_none _ q (takeToLastRbrace_none q hq)]
  have h2 : lbrace :: mid ++ [rbrace] = (lbrace :: mid) ++ [rbrace] := by simp
  rw [h2, takeToLastRbrace_ends]

/-- **C9, amended.**  `parseJsonResponse`: (1) a strict-JSON response returns
its parse; (2) a single JSON object wrapped in prose is extracted and parsed,
provided the leading prose contains no opening brace and the trailing prose no
closing brace (the regex spans greedily from the first opening to the last
closing brace); (3) when the greedy span is not valid JSON the second
`JSON.parse` throws (a `SyntaxError`, not the malformed-response error); (4)
the malformed-response error is raised only when the content has no brace span
at all. -/
theorem parseJsonResponse_semantics :
    (∀ (cs : List Char) (v : Json), jsonParse cs = some v →
      parseJsonResponse cs = .ok v) ∧
    (∀ (p mid q : List Char) (v : Json),
      (∀ c ∈ p, c ≠ lbrace) → (∀ c ∈ q, c ≠ rbrace) →
      jsonParse (p ++ (lbrace :: mid ++ [rbrace]) ++ q) = none →
      jsonParse (lbrace :: mid ++ [rbrace]) = some v →
      parseJsonResponse (p ++ (lbrace :: mid ++ [rbrace]) ++ q) = .ok v) ∧
    (∀ (cs span : List Char), jsonParse cs = none → extractBraceSpan cs = some span →
      jsonParse span = none → parseJsonResponse cs = .error .jsonThrow) ∧
    (∀ (cs : List Char), jsonParse cs = none → extractBraceSpan cs = none →
      parseJsonResponse cs = .error .malformed) := by
  refine ⟨?_, ?_, ?_, ?_⟩
  · intro cs v h
    unfold parseJsonResponse
    rw [h]
  · intro p mid q v hp hq hnone hv
    unfold parseJsonResponse
    rw [hnone, extractBraceSpan_sandwich p mid q hp hq]
    dsimp only
    rw [hv]
  · intro cs span h1 h2 h3
    unfold parseJsonResponse
    rw [h1, h2]
    dsimp only
    rw [h3]
  · intro cs h1 h2
    unfold parseJsonResponse
    rw [h1, h2]

/-- Witness for `parseJsonResponse_semantics` at concrete inputs: a strict JSON
response, an object wrapped in brace-free prose, a prose-wrapped span that is
not valid JSON, and a response with no braces at all. -/
theorem parseJsonResponse_semantics_witness :
    parseJsonResponse ['4', '2'] = .ok (.num 42 0) ∧
    parseJsonResponse (['p', 'r', 'o', 's', 'e', ' ']
        ++ (lbrace :: ['"', 'a', '"', ':', '1'] ++ [rbrace]) ++ [' ', 'e', 'n', 'd'])
      = .ok (.obj [(['a'], .num 1 0)]) ∧
    parseJsonResponse ['a', lbrace, 'z', rbrace] = .error .jsonThrow ∧
    parseJsonResponse ['h', 'i'] = .error .malformed := by
  refine ⟨?_, ?_, ?_, ?_⟩
  · exact parseJsonResponse_semantics.1 ['4', '2'] (.num 42 0) rfl
  · exact parseJsonResponse_semantics.2.1 ['p', 'r', 'o', 's', 'e', ' ']
      ['"', 'a', '"', ':', '1'] [' ', 'e', 'n', 'd'] (.obj [(['a'], .num 1 0)])
      (by decide) (by decide) rfl rfl
  · exact parseJsonResponse_semantics.2.2.1 ['a', lbrace, 'z', rbrace] [lbrace, 'z', rbrace]
      rfl rfl rfl
  · exact parseJsonResponse_semantics.2.2.2 ['h', 'i'] rfl rfl

end Hailight
